import Mathlib

set_option maxHeartbeats 1000000

/-
Shallow embedding of the github-material-icons-userscript repository.

The single source file scripts/fetch-icons.js contains two concatenated
programs: the Phase A mapping compiler (parseTypeScriptConfigs and friends)
and a build script whose template literal is the generated runtime
userscript.  The runtime engine embedded below consists of getFileIcon,
getFolderIcon, createIconImg, replaceIconForItem, replaceIconForTreeItem
and replaceIcons, translated statement by statement from that template.

JS strings are modeled by Lean String; the handful of JS string methods the
code uses (split, join, trim, toLowerCase, includes, startsWith, substring)
are given explicit character-list based models so that all definitions are
executable and kernel-reducible.
-/

/-- Whitespace test used to model JS String.prototype.trim (the ASCII
whitespace characters that can occur in the scraped DOM text). -/
def jsWs (c : Char) : Bool := c = ' ' || c = '\t' || c = '\n' || c = '\r'

/-- Model of JS s.trim(). -/
def jsTrim (s : String) : String :=
  String.mk (((s.data.dropWhile jsWs).reverse.dropWhile jsWs).reverse)

/-- Model of JS s.toLowerCase() (the names compared by the script are ASCII). -/
def jsLower (s : String) : String := String.mk (s.data.map Char.toLower)

/-- Model of JS s.includes(pat): substring containment. -/
def strContains (s pat : String) : Bool :=
  s.data.tails.any (fun t => List.isPrefixOf pat.data t)

/-- Split a character list at a single-character separator, with the
semantics of JS String.prototype.split: a leading/trailing separator
produces an empty segment, and splitting the empty string yields [""]. -/
def splitChars (sep : Char) : List Char → List (List Char)
  | [] => [[]]
  | c :: rest =>
    if c = sep then [] :: splitChars sep rest
    else
      match splitChars sep rest with
      | [] => [[c]]
      | l :: ls => (c :: l) :: ls

/-- Model of JS s.split(sep) for a one-character separator. -/
def jsSplit (s : String) (sep : Char) : List String :=
  (splitChars sep s.data).map String.mk

/-- Model of JS arr.join(sep). -/
def jsJoin (sep : String) : List String → String
  | [] => ""
  | [x] => x
  | x :: xs => x ++ sep ++ jsJoin sep xs

/-- Model of JS s.startsWith('.'). -/
def jsStartsWithDot (s : String) : Bool :=
  match s.data with
  | c :: _ => c = '.'
  | [] => false

/-- Model of JS s.substring(1). -/
def jsDropFirst (s : String) : String := String.mk (s.data.drop 1)

/-- Own-property lookup in one of the ICON_MAPPINGS tables.  The generated
tables are JS object literals with unique keys whose values are non-empty
data URIs, so property access is modeled as association-list lookup and JS
truthiness of a found value as Option.isSome. -/
def lookupTbl : List (String × String) → String → Option String
  | [], _ => none
  | (k, v) :: rest, key => if k = key then some v else lookupTbl rest key

/-- The ICON_MAPPINGS constant of the generated userscript: three name-to-
icon tables, the optional defaults, and the always-present symlink icon.
Icon payloads (data URIs) are opaque strings here. -/
structure IconMappings where
  extensions : List (String × String)
  filenames : List (String × String)
  folders : List (String × String)
  defaultFile : Option String
  defaultFolder : Option String
  symlink : String
deriving DecidableEq

/-- getFileIcon from the generated userscript (scripts/fetch-icons.js,
userscript template lines 737-769): exact filename match, then for names
with more than two dot-separated parts the last-part-stripped exact match
and the second-to-last-part extension match, then the final-part extension
match for names with more than one part, then the default file icon. -/
def getFileIcon (m : IconMappings) (filename : String) : Option String :=
  match lookupTbl m.filenames filename with
  | some v => some v
  | none =>
    let parts := jsSplit filename '.'
    let compound :=
      if parts.length > 2 then
        match lookupTbl m.filenames (jsJoin "." parts.dropLast) with
        | some v => some v
        | none => lookupTbl m.extensions (jsLower (parts.getD (parts.length - 2) ""))
      else none
    match compound with
    | some v => some v
    | none =>
      let simple :=
        if parts.length > 1 then
          lookupTbl m.extensions (jsLower (parts.getD (parts.length - 1) ""))
        else none
      match simple with
      | some v => some v
      | none => m.defaultFile

/-- getFolderIcon from the generated userscript (template lines 774-789):
exact folder match, then for names starting with '.' a retry on the name
with the single leading dot stripped, then the default folder icon. -/
def getFolderIcon (m : IconMappings) (foldername : String) : Option String :=
  match lookupTbl m.folders foldername with
  | some v => some v
  | none =>
    if jsStartsWithDot foldername then
      match lookupTbl m.folders (jsDropFirst foldername) with
      | some v => some v
      | none => m.defaultFolder
    else m.defaultFolder

/-- Kind of a scanned item, as classified by replaceIconForItem /
replaceIconForTreeItem before dispatching to the resolution functions. -/
inductive FsKind
  | file
  | folder
  | symlink
deriving DecidableEq

/-- The resolution dispatch performed by the replacement functions:
symlinks always get ICON_MAPPINGS.symlink, folders go through
getFolderIcon, files through getFileIcon. -/
def resolve (m : IconMappings) (name : String) (kind : FsKind) : Option String :=
  match kind with
  | .symlink => some m.symlink
  | .folder => getFolderIcon m name
  | .file => getFileIcon m name

/-- A trace of resolution calls: the engine calling resolve repeatedly, in
some order, possibly interleaved with other calls. -/
def runResolve (m : IconMappings) (calls : List (String × FsKind)) : List (Option String) :=
  calls.map (fun c => resolve m c.1 c.2)

/-- Concrete table used to refute claim C1 as stated: the extension table
maps "txt", the filename table maps the stripped name "a". -/
def mC1 : IconMappings :=
  ⟨[("txt", "iconT")], [("a", "iconA")], [], none, none, "sym"⟩

/-- Concrete table used to refute claim C3 as stated: the folder table maps
"foo" only. -/
def mC3 : IconMappings :=
  ⟨[], [], [("foo", "iconF")], none, none, "sym"⟩

/-- Concrete table exercising the confirmed resolution claims. -/
def mW : IconMappings :=
  ⟨[("php", "iconPhp"), ("xml", "iconXml"), ("env", "iconEnv")],
   [("phpunit.xml", "iconPhpunit")],
   [("github", "iconGithub")],
   some "iconDefaultFile", some "iconDefaultFolder", "iconSymlink"⟩

-- ---------------------------------------------------------------------------
-- Phase A: parseTypeScriptConfigs block-end extraction (scripts/fetch-icons.js)
-- ---------------------------------------------------------------------------

/-- The opening curly brace character. -/
def openBrace : Char := Char.ofNat 123

/-- The closing curly brace character. -/
def closeBrace : Char := Char.ofNat 125

/-- The brace-counting loop used by parseTypeScriptConfigs for FILE icon
records (fetch-icons.js lines 271-287): walk the content from the record
start, incrementing braceCount on an opening brace (setting inBlock),
decrementing on a closing brace, breaking at the closing brace where
inBlock holds and the count returns to zero.  The content argument is the
file from the record start (match.index) onward; the returned index is
relative to that start.  A loop that runs off the end leaves
blockEnd = blockStart, which the code's validation then rejects (lines
289-292); that case is modeled as none. -/
def fileBlockEndAux : List Char → Nat → Int → Bool → Option Nat
  | [], _, _, _ => none
  | c :: rest, i, count, inB =>
    if c = openBrace then fileBlockEndAux rest (i + 1) (count + 1) true
    else if c = closeBrace then
      if inB ∧ count - 1 = 0 then some i
      else fileBlockEndAux rest (i + 1) (count - 1) inB
    else fileBlockEndAux rest (i + 1) count inB

/-- End-of-record search for a file icon record starting at position 0 of
the given content. -/
def fileBlockEnd (cs : List Char) : Option Nat := fileBlockEndAux cs 0 0 false

/-- The end-of-record search used by parseTypeScriptConfigs for FOLDER icon
records (fetch-icons.js line 355): folderIconsContent.indexOf(closing
brace, blockStart), i.e. the first closing brace at or after the record
start, with -1 (not found) modeled as none and rejected by the code's
validation (lines 358-361). -/
def folderBlockEndAux : List Char → Nat → Option Nat
  | [], _ => none
  | c :: rest, i => if c = closeBrace then some i else folderBlockEndAux rest (i + 1)

/-- End-of-record search for a folder icon record starting at position 0 of
the given content. -/
def folderBlockEnd (cs : List Char) : Option Nat := folderBlockEndAux cs 0

/-- Number of opening braces in a character list. -/
def openCount (cs : List Char) : Nat := cs.countP (fun c => decide (c = openBrace))

/-- Number of closing braces in a character list. -/
def closeCount (cs : List Char) : Nat := cs.countP (fun c => decide (c = closeBrace))

/-- A record content with a nested brace pair: an opening brace, then x,
then a nested opening and closing brace, then y, then the record's true
closing brace. -/
def exC9 : List Char := [openBrace, 'x', openBrace, closeBrace, 'y', closeBrace]

-- ---------------------------------------------------------------------------
-- Phase B DOM model
--
-- The reconciliation engine operates on two kinds of candidate nodes: file
-- browser rows (replaceIconForItem) and tree-view items
-- (replaceIconForTreeItem).  The parts of the DOM the engine reads and
-- writes are modeled explicitly: the child list of the parent of the icon
-- SVG (where the replacement image is inserted) and, for rows wrapped by
-- the Refined GitHub edit link, that link's child list.  querySelector
-- results that the functions merely test for presence (the up-tree link,
-- the target cell, the name link, the filename column) are modeled as
-- Option-valued fields.  All nodes are elements (text nodes play no role
-- in the sibling navigation the code performs); presentational properties
-- of the injected image (size, margin, filter) are not modeled, only its
-- src and its marker class.
-- ---------------------------------------------------------------------------

/-- An icon SVG element: its class list, the two style properties the
engine toggles, and its aria-label attribute. -/
structure SvgElem where
  classes : List String
  visibility : String
  position : String
  ariaLabel : Option String
deriving DecidableEq

/-- A child of the icon SVG's parent element: an SVG, an image, or some
other element. -/
inductive FlatNode
  | svgF (s : SvgElem)
  | imgF (src : String) (classes : List String)
  | otherF
deriving DecidableEq

/-- A child of the filename column of a row: either a direct child node or
the Refined GitHub edit link (a.rgh-quick-file-edit) with its children. -/
inductive CNode
  | top (n : FlatNode)
  | editLinkNode (children : List FlatNode)
deriving DecidableEq

/-- img.material-icon-replacement: the marker test the engine uses to
detect its own injected images. -/
def isMarkerImg : FlatNode → Bool
  | .imgF _ cls => cls.contains "material-icon-replacement"
  | _ => false

/-- svg.octicon: class-list membership test. -/
def octiconSvg (s : SvgElem) : Bool := s.classes.contains "octicon"

/-- The class attribute string of an SVG, for CSS [class*=...] matching. -/
def classAttr (s : SvgElem) : String := jsJoin " " s.classes

/-- svg[class*="octicon-file"]: substring match on the class attribute. -/
def fileClassSvg (s : SvgElem) : Bool := strContains (classAttr s) "octicon-file"

/-- .octicon-pencil class-list membership. -/
def pencilSvg (s : SvgElem) : Bool := s.classes.contains "octicon-pencil"

/-- svg[class*="octicon-file"]:not(.octicon-pencil). -/
def nonPencilFileSvg (s : SvgElem) : Bool := fileClassSvg s && !pencilSvg s

/-- Suppression of an original SVG: style.visibility = 'hidden' and
style.position = 'absolute' (both replacement functions always set the two
together). -/
def hideSvg (s : SvgElem) : SvgElem :=
  { s with visibility := "hidden", position := "absolute" }

/-- createIconImg (userscript template lines 794-807): an img with the
given data URI as src, tagged with the material-icon-replacement class. -/
def createIconImg (icon : String) : FlatNode :=
  .imgF icon ["material-icon-replacement"]

/-- An SVG whose visibility style is 'hidden'. -/
def isHiddenSvg : FlatNode → Bool
  | .svgF s => s.visibility == "hidden"
  | _ => false

/-- querySelector for the first SVG matching p in a flat child list. -/
def findSvgP (p : SvgElem → Bool) : List FlatNode → Option SvgElem
  | [] => none
  | .svgF s :: xs => if p s then some s else findSvgP p xs
  | _ :: xs => findSvgP p xs

/-- svg.nextElementSibling?.classList.contains('material-icon-replacement')
for the first SVG matching p. -/
def nextIsMarkerP (p : SvgElem → Bool) : List FlatNode → Bool
  | [] => false
  | .svgF s :: xs =>
    if p s then
      match xs with
      | y :: _ => isMarkerImg y
      | [] => false
    else nextIsMarkerP p xs
  | _ :: xs => nextIsMarkerP p xs

/-- Hide the first SVG matching p and insert the replacement image directly
after it (svg.parentNode.insertBefore(img, svg.nextSibling)). -/
def hideInsertAfterP (p : SvgElem → Bool) (icon : String) : List FlatNode → List FlatNode
  | [] => []
  | .svgF s :: xs =>
    if p s then .svgF (hideSvg s) :: createIconImg icon :: xs
    else .svgF s :: hideInsertAfterP p icon xs
  | n :: xs => n :: hideInsertAfterP p icon xs

/-- Hide the first SVG matching p, inserting nothing (the tree-view "icon
already exists" branch re-suppresses the original only). -/
def hideFirstP (p : SvgElem → Bool) : List FlatNode → List FlatNode
  | [] => []
  | .svgF s :: xs =>
    if p s then .svgF (hideSvg s) :: xs
    else .svgF s :: hideFirstP p xs
  | n :: xs => n :: hideFirstP p xs

/-- Number of injected replacement images in a flat child list. -/
def markerCountP (l : List FlatNode) : Nat := l.countP isMarkerImg

/-- Number of suppressed (hidden) SVGs in a flat child list. -/
def hiddenCountP (l : List FlatNode) : Nat := l.countP isHiddenSvg

/-- External removal of every injected replacement image from a flat child
list (a page script stripping unknown children). -/
def removeMarkersP (l : List FlatNode) : List FlatNode :=
  l.filter (fun n => !isMarkerImg n)

/-- Location of the first svg[class*="octicon-file"] found by querySelector
on the filename column: a direct child, or inside the Refined GitHub edit
link (in which case svg.closest('a.rgh-quick-file-edit') is that link). -/
inductive SvgLoc
  | atTop (s : SvgElem)
  | inEdit (s : SvgElem)
deriving DecidableEq

/-- The SVG element at a location. -/
def SvgLoc.svg : SvgLoc → SvgElem
  | .atTop s => s
  | .inEdit s => s

/-- container.querySelector('svg[class*="octicon-file"]') in document
order, together with the result of svg.closest('a.rgh-quick-file-edit'). -/
def findFileSvgC : List CNode → Option SvgLoc
  | [] => none
  | .top (.svgF s) :: xs => if fileClassSvg s then some (.atTop s) else findFileSvgC xs
  | .top _ :: xs => findFileSvgC xs
  | .editLinkNode ch :: xs =>
    match findSvgP fileClassSvg ch with
    | some s => some (.inEdit s)
    | none => findFileSvgC xs

/-- A container child bearing the replacement marker class. -/
def isMarkerC : CNode → Bool
  | .top n => isMarkerImg n
  | .editLinkNode _ => false

/-- For the first file SVG found as a direct child: whether its next
element sibling is an injected replacement image. -/
def markerNextTopC : List CNode → Bool
  | [] => false
  | .top (.svgF s) :: xs =>
    if fileClassSvg s then
      match xs with
      | .top n :: _ => isMarkerImg n
      | _ => false
    else markerNextTopC xs
  | .top _ :: xs => markerNextTopC xs
  | .editLinkNode ch :: xs =>
    if (findSvgP fileClassSvg ch).isSome then false else markerNextTopC xs

/-- Non-Refined-GitHub replacement: hide the found file SVG and insert the
replacement image directly after it. -/
def hideInsertTopC (icon : String) : List CNode → List CNode
  | [] => []
  | .top (.svgF s) :: xs =>
    if fileClassSvg s then .top (.svgF (hideSvg s)) :: .top (createIconImg icon) :: xs
    else .top (.svgF s) :: hideInsertTopC icon xs
  | .top n :: xs => .top n :: hideInsertTopC icon xs
  | .editLinkNode ch :: xs =>
    if (findSvgP fileClassSvg ch).isSome then .editLinkNode ch :: xs
    else .editLinkNode ch :: hideInsertTopC icon xs

/-- Hide the found direct-child file SVG without inserting (used to
describe the orphaned state left after the injected image is removed). -/
def hideTopC : List CNode → List CNode
  | [] => []
  | .top (.svgF s) :: xs =>
    if fileClassSvg s then .top (.svgF (hideSvg s)) :: xs
    else .top (.svgF s) :: hideTopC xs
  | .top n :: xs => .top n :: hideTopC xs
  | .editLinkNode ch :: xs =>
    if (findSvgP fileClassSvg ch).isSome then .editLinkNode ch :: xs
    else .editLinkNode ch :: hideTopC xs

/-- editLink.querySelector('img.material-icon-replacement') at the edit
link containing the found file SVG. -/
def editHasExistingC : List CNode → Bool
  | [] => false
  | .top (.svgF s) :: xs => if fileClassSvg s then false else editHasExistingC xs
  | .top _ :: xs => editHasExistingC xs
  | .editLinkNode ch :: xs =>
    if (findSvgP fileClassSvg ch).isSome then ch.any isMarkerImg else editHasExistingC xs

/-- The while loop of the existing-icon branch: remove the consecutive run
of replacement images that are next element siblings of the edit link. -/
def removeMarkerRunAfterEditC : List CNode → List CNode
  | [] => []
  | .top (.svgF s) :: xs =>
    if fileClassSvg s then .top (.svgF s) :: xs
    else .top (.svgF s) :: removeMarkerRunAfterEditC xs
  | .top n :: xs => .top n :: removeMarkerRunAfterEditC xs
  | .editLinkNode ch :: xs =>
    if (findSvgP fileClassSvg ch).isSome then .editLinkNode ch :: xs.dropWhile isMarkerC
    else .editLinkNode ch :: removeMarkerRunAfterEditC xs

/-- The single-sibling removal before injection: if the edit link's next
element sibling is a replacement image, remove it (one only). -/
def removeOneMarkerAfterEditC : List CNode → List CNode
  | [] => []
  | .top (.svgF s) :: xs =>
    if fileClassSvg s then .top (.svgF s) :: xs
    else .top (.svgF s) :: removeOneMarkerAfterEditC xs
  | .top n :: xs => .top n :: removeOneMarkerAfterEditC xs
  | .editLinkNode ch :: xs =>
    if (findSvgP fileClassSvg ch).isSome then
      .editLinkNode ch ::
        (match xs with
         | y :: ys => if isMarkerC y then ys else y :: ys
         | [] => [])
    else .editLinkNode ch :: removeOneMarkerAfterEditC xs

/-- editLink.querySelector('svg[class*="octicon-file"]:not(.octicon-pencil)')
at the edit link containing the found file SVG. -/
def editFileIconSvgC : List CNode → Option SvgElem
  | [] => none
  | .top (.svgF s) :: xs => if fileClassSvg s then none else editFileIconSvgC xs
  | .top _ :: xs => editFileIconSvgC xs
  | .editLinkNode ch :: xs =>
    if (findSvgP fileClassSvg ch).isSome then findSvgP nonPencilFileSvg ch
    else editFileIconSvgC xs

/-- Refined GitHub replacement: hide the non-pencil file icon SVG inside
the edit link and insert the replacement image as the link's first child
(editLink.insertBefore(img, editLink.firstChild)). -/
def rghInjectC (icon : String) : List CNode → List CNode
  | [] => []
  | .top (.svgF s) :: xs =>
    if fileClassSvg s then .top (.svgF s) :: xs
    else .top (.svgF s) :: rghInjectC icon xs
  | .top n :: xs => .top n :: rghInjectC icon xs
  | .editLinkNode ch :: xs =>
    if (findSvgP fileClassSvg ch).isSome then
      .editLinkNode (createIconImg icon :: hideFirstP nonPencilFileSvg ch) :: xs
    else .editLinkNode ch :: rghInjectC icon xs

/-- Hide the non-pencil file icon SVG inside the matched edit link without
inserting (describes the orphaned state of a Refined GitHub row). -/
def hideEditC : List CNode → List CNode
  | [] => []
  | .top (.svgF s) :: xs =>
    if fileClassSvg s then .top (.svgF s) :: xs
    else .top (.svgF s) :: hideEditC xs
  | .top n :: xs => .top n :: hideEditC xs
  | .editLinkNode ch :: xs =>
    if (findSvgP fileClassSvg ch).isSome then
      .editLinkNode (hideFirstP nonPencilFileSvg ch) :: xs
    else .editLinkNode ch :: hideEditC xs

/-- Number of injected replacement images in a filename-column child list,
including those inside the edit link. -/
def markerCountC : List CNode → Nat
  | [] => 0
  | .top n :: xs => (if isMarkerImg n then 1 else 0) + markerCountC xs
  | .editLinkNode ch :: xs => markerCountP ch + markerCountC xs

/-- Number of suppressed SVGs in a filename-column child list. -/
def hiddenCountC : List CNode → Nat
  | [] => 0
  | .top n :: xs => (if isHiddenSvg n then 1 else 0) + hiddenCountC xs
  | .editLinkNode ch :: xs => hiddenCountP ch + hiddenCountC xs

/-- External removal of every injected replacement image from a
filename-column child list. -/
def removeMarkersC : List CNode → List CNode
  | [] => []
  | .top n :: xs => if isMarkerImg n then removeMarkersC xs else .top n :: removeMarkersC xs
  | .editLinkNode ch :: xs => .editLinkNode (removeMarkersP ch) :: removeMarkersC xs

/-- The target cell of a row: the name link (href and text content) and
the filename column child list, each possibly missing. -/
structure CellInfo where
  link : Option (String × String)
  container : Option (List CNode)
deriving DecidableEq

/-- A file-browser row candidate (div[role="row"] / tr.react-directory-row):
either the parent-directory row (a[data-testid="up-tree"] present, modeled
by the child list of the up-tree link), or a normal row with its target
cell. -/
structure RowItem where
  parentDir : Option (List FlatNode)
  cell : Option CellInfo
deriving DecidableEq

/-- A tree-view item candidate (.PRIVATE_TreeView-item-content): the
filename span text and the child list of the icon SVG's parent inside the
item-visual container, each possibly missing. -/
structure TreeItem where
  nameText : Option String
  visual : Option (List FlatNode)
deriving DecidableEq

/-- The DOM state replaceIcons scans: the row candidates and the tree-view
candidates (disjoint subtrees of the page). -/
structure DomState where
  rows : List RowItem
  trees : List TreeItem
deriving DecidableEq

/-- svg.getAttribute('aria-label')?.toLowerCase().includes(w). -/
def ariaHas (s : SvgElem) (w : String) : Bool :=
  match s.ariaLabel with
  | some a => strContains (jsLower a) w
  | none => false

/-- The symlink test of both replacement functions. -/
def isSymlinkSvg (s : SvgElem) : Bool :=
  s.classes.contains "octicon-file-symlink-file" ||
  s.classes.contains "octicon-file-symlink-directory"

/-- The classification and resolution of replaceIconForItem (template lines
866-884): symlink by SVG class, folder by href or aria-label, else file.
ICON_MAPPINGS.symlink is always a non-empty data URI, hence truthy. -/
def itemIcon (m : IconMappings) (href : String) (s : SvgElem) (name : String) : Option String :=
  if isSymlinkSvg s then some m.symlink
  else if strContains href "/tree/" || ariaHas s "directory" || ariaHas s "folder" then
    getFolderIcon m name
  else getFileIcon m name

/-- The classification and resolution of replaceIconForTreeItem (template
lines 981-999): symlink and folder by SVG class, open and closed folder
classes treated alike. -/
def treeItemIcon (m : IconMappings) (s : SvgElem) (name : String) : Option String :=
  if isSymlinkSvg s then some m.symlink
  else if s.classes.contains "octicon-file-directory" ||
          s.classes.contains "octicon-file-directory-fill" ||
          s.classes.contains "octicon-file-directory-open-fill" then
    getFolderIcon m name
  else getFileIcon m name

/-- The display-name computation of replaceIconForItem: trim, and truncate
a collapsed path ("a/b") to its first segment. -/
def rowDisplayName (text : String) : String :=
  let name0 := jsTrim text
  if name0.data.contains '/' then String.mk (name0.data.takeWhile (fun c => c != '/'))
  else name0

/-- replaceIconForItem (userscript template lines 812-946), acting on one
row candidate and returning the updated row together with the number of
replacement images it inserted (the stats.replaced increment).  Any
missing sub-element leads to the unmodified row with count zero. -/
def replaceIconForItem (m : IconMappings) : RowItem → RowItem × Nat
  | ⟨some pd, cell⟩ =>
    match findSvgP octiconSvg pd with
    | none => (⟨some pd, cell⟩, 0)
    | some _ =>
      if nextIsMarkerP octiconSvg pd then (⟨some pd, cell⟩, 0)
      else
        match m.defaultFolder with
        | none => (⟨some pd, cell⟩, 0)
        | some icon => (⟨some (hideInsertAfterP octiconSvg icon pd), cell⟩, 1)
  | ⟨none, none⟩ => (⟨none, none⟩, 0)
  | ⟨none, some ⟨none, cont⟩⟩ => (⟨none, some ⟨none, cont⟩⟩, 0)
  | ⟨none, some ⟨some (href, text), none⟩⟩ =>
    (⟨none, some ⟨some (href, text), none⟩⟩, 0)
  | ⟨none, some ⟨some (href, text), some cs⟩⟩ =>
    if jsTrim text = "" then (⟨none, some ⟨some (href, text), some cs⟩⟩, 0)
    else
      match findFileSvgC cs with
      | none => (⟨none, some ⟨some (href, text), some cs⟩⟩, 0)
      | some loc =>
        match itemIcon m href loc.svg (rowDisplayName text) with
        | none => (⟨none, some ⟨some (href, text), some cs⟩⟩, 0)
        | some icon =>
          match loc with
          | .atTop _ =>
            if markerNextTopC cs then (⟨none, some ⟨some (href, text), some cs⟩⟩, 0)
            else (⟨none, some ⟨some (href, text), some (hideInsertTopC icon cs)⟩⟩, 1)
          | .inEdit _ =>
            if editHasExistingC cs then
              (⟨none, some ⟨some (href, text), some (removeMarkerRunAfterEditC cs)⟩⟩, 0)
            else
              match editFileIconSvgC (removeOneMarkerAfterEditC cs) with
              | some _ =>
                (⟨none, some ⟨some (href, text),
                  some (rghInjectC icon (removeOneMarkerAfterEditC cs))⟩⟩, 1)
              | none =>
                (⟨none, some ⟨some (href, text), some (removeOneMarkerAfterEditC cs)⟩⟩, 0)

/-- replaceIconForTreeItem (userscript template lines 951-1010). -/
def replaceIconForTreeItem (m : IconMappings) : TreeItem → TreeItem × Nat
  | ⟨none, vis⟩ => (⟨none, vis⟩, 0)
  | ⟨some txt, none⟩ => (⟨some txt, none⟩, 0)
  | ⟨some txt, some vs⟩ =>
    if jsTrim txt = "" then (⟨some txt, some vs⟩, 0)
    else
      match findSvgP octiconSvg vs with
      | none => (⟨some txt, some vs⟩, 0)
      | some svg =>
        if vs.any isMarkerImg then (⟨some txt, some (hideFirstP octiconSvg vs)⟩, 0)
        else
          match treeItemIcon m svg (jsTrim txt) with
          | none => (⟨some txt, some vs⟩, 0)
          | some icon => (⟨some txt, some (hideInsertAfterP octiconSvg icon vs)⟩, 1)

/-- replaceIcons (userscript template lines 1015-1040): one full pass over
every row candidate and every tree-view candidate, with the stats.replaced
total. -/
def replaceIcons (m : IconMappings) (d : DomState) : DomState × Nat :=
  (⟨d.rows.map (fun r => (replaceIconForItem m r).1),
    d.trees.map (fun t => (replaceIconForTreeItem m t).1)⟩,
   (d.rows.map (fun r => (replaceIconForItem m r).2)).sum +
   (d.trees.map (fun t => (replaceIconForTreeItem m t).2)).sum)

/-- Number of injected replacement images anywhere in a row candidate. -/
def injectedCountRow (row : RowItem) : Nat :=
  (match row.parentDir with
   | some pd => markerCountP pd
   | none => 0) +
  (match row.cell with
   | some c =>
     match c.container with
     | some cs => markerCountC cs
     | none => 0
   | none => 0)

/-- Number of suppressed SVGs anywhere in a row candidate. -/
def hiddenCountRow (row : RowItem) : Nat :=
  (match row.parentDir with
   | some pd => hiddenCountP pd
   | none => 0) +
  (match row.cell with
   | some c =>
     match c.container with
     | some cs => hiddenCountC cs
     | none => 0
   | none => 0)

/-- Number of injected replacement images in a tree-view candidate. -/
def injectedCountTree (t : TreeItem) : Nat :=
  match t.visual with
  | some vs => markerCountP vs
  | none => 0

/-- Number of suppressed SVGs in a tree-view candidate. -/
def hiddenCountTree (t : TreeItem) : Nat :=
  match t.visual with
  | some vs => hiddenCountP vs
  | none => 0

/-- A row as the page initially renders it: no injected replacement images
and no suppressed SVGs. -/
def pristineRow (row : RowItem) : Prop :=
  injectedCountRow row = 0 ∧ hiddenCountRow row = 0

/-- A tree-view item as the page initially renders it. -/
def pristineTree (t : TreeItem) : Prop :=
  injectedCountTree t = 0 ∧ hiddenCountTree t = 0

instance (row : RowItem) : Decidable (pristineRow row) :=
  inferInstanceAs (Decidable (injectedCountRow row = 0 ∧ hiddenCountRow row = 0))

instance (t : TreeItem) : Decidable (pristineTree t) :=
  inferInstanceAs (Decidable (injectedCountTree t = 0 ∧ hiddenCountTree t = 0))

/-- n reconciliation passes over one row candidate. -/
def iterRowPass (m : IconMappings) : Nat → RowItem → RowItem
  | 0, r => r
  | n + 1, r => iterRowPass m n (replaceIconForItem m r).1

/-- n reconciliation passes over one tree-view candidate. -/
def iterTreePass (m : IconMappings) : Nat → TreeItem → TreeItem
  | 0, t => t
  | n + 1, t => iterTreePass m n (replaceIconForTreeItem m t).1

/-- External removal of the injected replacement image(s) of a row while
its original nodes stay in place (the orphaning event the
MutationObserver's removedNodes branch reacts to, template lines
1085-1095). -/
def removeInjectedRow (row : RowItem) : RowItem :=
  ⟨row.parentDir.map removeMarkersP,
   row.cell.map (fun c => ⟨c.link, c.container.map removeMarkersC⟩)⟩

/-- A concrete pristine file-row SVG. -/
def svgW : SvgElem := ⟨["octicon", "octicon-file"], "visible", "static", none⟩

/-- A concrete pristine row candidate for index.php. -/
def rowW : RowItem :=
  ⟨none, some ⟨some ("/u/r/blob/main/index.php", "index.php"),
    some [.top (.svgF svgW)]⟩⟩

/-- A concrete pristine tree-view folder SVG. -/
def dirSvgW : SvgElem :=
  ⟨["octicon", "octicon-file-directory-fill"], "visible", "static", none⟩

/-- A concrete pristine tree-view candidate for the folder src. -/
def treeW : TreeItem := ⟨some "src", some [.svgF dirSvgW]⟩

/-- A malformed row candidate: the filename column holds no icon SVG. -/
def rowBad : RowItem :=
  ⟨none, some ⟨some ("/u/r/blob/main/x.bin", "x.bin"), some [.top .otherF]⟩⟩

-- ---------------------------------------------------------------------------
-- Helper lemmas about the string models
-- ---------------------------------------------------------------------------

theorem stringMkData (s : String) : String.mk s.data = s := by
  cases s
  rfl

theorem splitChars_no_sep (sep : Char) :
    ∀ l : List Char, l.all (fun c => decide (c ≠ sep)) = true →
    splitChars sep l = [l] := by
  intro l
  induction l with
  | nil => intro _; rfl
  | cons c rest ih =>
    intro h
    simp only [List.all_cons, Bool.and_eq_true, decide_eq_true_eq] at h
    simp only [splitChars, if_neg h.1, ih h.2]

-- ---------------------------------------------------------------------------
-- Claim C1
-- ---------------------------------------------------------------------------

/-- Claim C1, counterexample.  The claim quantifies over file names with at
least two dot-separated segments, but getFileIcon only performs the
stripped-name retry and second-to-last extension lookup when there are more
than two segments.  For the two-segment name "a.txt" with a filename-table
entry for the stripped name "a", the claim requires the stripped exact
match "a" (iconA) to win before any extension lookup on the final segment,
yet getFileIcon returns the extension icon for "txt" (iconT). -/
theorem getFileIcon_two_segment_counterexample :
    2 ≤ (jsSplit "a.txt" '.').length ∧
    lookupTbl mC1.filenames "a.txt" = none ∧
    lookupTbl mC1.filenames "a" = some "iconA" ∧
    ¬ getFileIcon mC1 "a.txt" = some "iconA" ∧
    getFileIcon mC1 "a.txt" = some "iconT" := by
  decide

/-- Claim C1, amended: for every file name with MORE THAN TWO dot-separated
segments and no exact full-name entry, getFileIcon first retries an exact
filename match with the final segment stripped and, if still unresolved,
attempts an extension lookup using the second-to-last segment — both before
any extension lookup on the final segment. -/
theorem getFileIcon_compound_priority (m : IconMappings) (name : String)
    (h3 : 2 < (jsSplit name '.').length)
    (hno : lookupTbl m.filenames name = none) :
    (∀ v, lookupTbl m.filenames (jsJoin "." (jsSplit name '.').dropLast) = some v →
      getFileIcon m name = some v) ∧
    (lookupTbl m.filenames (jsJoin "." (jsSplit name '.').dropLast) = none →
      ∀ v, lookupTbl m.extensions
          (jsLower ((jsSplit name '.').getD ((jsSplit name '.').length - 2) "")) = some v →
      getFileIcon m name = some v) := by
  constructor
  · intro v hv
    simp only [getFileIcon, hno, if_pos h3, hv]
  · intro hs v hv
    simp only [getFileIcon, hno, if_pos h3, hs, hv]

/-- Witness for the amended claim C1 at a concrete input: "phpunit.xml.dist"
resolves through the stripped exact match "phpunit.xml". -/
theorem getFileIcon_compound_priority_witness :
    getFileIcon mW "phpunit.xml.dist" = some "iconPhpunit" := by
  exact (getFileIcon_compound_priority mW "phpunit.xml.dist" (by decide) (by decide)).1
    "iconPhpunit" (by decide)

-- ---------------------------------------------------------------------------
-- Claim C2
-- ---------------------------------------------------------------------------

/-- Claim C2: for a filename of the shape base.ext.suffix (three
dot-separated segments) with no exact filename-table entry for the full
name and none for base.ext, getFileIcon returns the extension-table icon
for ext, compared case-insensitively; i.e. exactly the table entry any file
resolving via extension ext receives. -/
theorem getFileIcon_base_ext_suffix (m : IconMappings)
    (name base ext suffix : String)
    (hsplit : jsSplit name '.' = [base, ext, suffix])
    (hno : lookupTbl m.filenames name = none)
    (hno2 : lookupTbl m.filenames (base ++ "." ++ ext) = none)
    (v : String)
    (hv : lookupTbl m.extensions (jsLower ext) = some v) :
    getFileIcon m name = some v := by
  have hj : jsJoin "." [base, ext] = base ++ "." ++ ext := by
    simp [jsJoin]
  simp only [getFileIcon, hno, hsplit, List.length_cons, List.length_nil]
  norm_num [hj, hno2, hv]

/-- Witness for claim C2: "phpcs.XML.dist" (no exact entries) resolves to
the extension icon for "xml", case-insensitively. -/
theorem getFileIcon_base_ext_suffix_witness :
    getFileIcon mW "phpcs.XML.dist" = some "iconXml" := by
  exact getFileIcon_base_ext_suffix mW "phpcs.XML.dist" "phpcs" "XML" "dist"
    (by decide) (by decide) (by decide) "iconXml" (by decide)

-- ---------------------------------------------------------------------------
-- Claim C3
-- ---------------------------------------------------------------------------

/-- Claim C3, counterexample.  getFolderIcon strips a single leading dot,
but resolving the stripped name strips again: for "..foo" with folder table
{foo}, getFolderIcon "..foo" falls to the default (none here) while
getFolderIcon ".foo" finds "foo".  The claimed equality fails. -/
theorem getFolderIcon_double_dot_counterexample :
    jsStartsWithDot "..foo" = true ∧
    lookupTbl mC3.folders "..foo" = none ∧
    ¬ getFolderIcon mC3 "..foo" = getFolderIcon mC3 (jsDropFirst "..foo") := by
  decide

/-- Claim C3, amended: for every folder name beginning with '.' whose
remainder does not itself begin with '.', with no direct folder-table
entry, getFolderIcon returns the same result as getFolderIcon of the name
with the leading dot stripped. -/
theorem getFolderIcon_hidden_strip (m : IconMappings) (name : String)
    (hdot : jsStartsWithDot name = true)
    (hno : lookupTbl m.folders name = none)
    (hnd : jsStartsWithDot (jsDropFirst name) = false) :
    getFolderIcon m name = getFolderIcon m (jsDropFirst name) := by
  simp only [getFolderIcon, hno, hdot, if_true]
  cases h : lookupTbl m.folders (jsDropFirst name) with
  | some v => simp [h]
  | none => simp [h, hnd]

/-- Witness for the amended claim C3: ".github" (no direct entry) resolves
exactly as "github". -/
theorem getFolderIcon_hidden_strip_witness :
    getFolderIcon mW ".github" = getFolderIcon mW (jsDropFirst ".github") := by
  exact getFolderIcon_hidden_strip mW ".github" (by decide) (by decide) (by decide)

-- ---------------------------------------------------------------------------
-- Claim C8
-- ---------------------------------------------------------------------------

/-- Claim C8: icon resolution is pure and deterministic.  For any two call
traces, in any order and with any other calls interleaved, two occurrences
of the same (name, kind) query produce the same icon or the same absence. -/
theorem resolve_pure_deterministic (m : IconMappings)
    (calls1 calls2 : List (String × FsKind)) (i j : Nat) (q : String × FsKind)
    (h1 : calls1[i]? = some q) (h2 : calls2[j]? = some q) :
    (runResolve m calls1)[i]? = (runResolve m calls2)[j]? := by
  simp [runResolve, List.getElem?_map, h1, h2]

/-- Witness for claim C8: the query ("index.php", file) gives the same
answer at position 0 of one trace and position 2 of a longer, differently
interleaved trace. -/
theorem resolve_pure_deterministic_witness :
    (runResolve mW [("index.php", FsKind.file)])[0]? =
      (runResolve mW [(".github", FsKind.folder), ("x", FsKind.symlink),
                      ("index.php", FsKind.file)])[2]? := by
  exact resolve_pure_deterministic mW _ _ 0 2 ("index.php", FsKind.file)
    (by decide) (by decide)

-- ---------------------------------------------------------------------------
-- Claim C10
-- ---------------------------------------------------------------------------

/-- Claim C10: for a filename that is a single leading dot followed by a
dot-free tail (e.g. ".env"), with no exact filename-table entry, getFileIcon
treats the whole tail as an extension: it returns the extension-table icon
for the lowercased tail when one exists, and otherwise falls back to the
default file icon. -/
theorem getFileIcon_leading_dot_extension (m : IconMappings)
    (name tail : String)
    (hshape : name.data = '.' :: tail.data)
    (htail : tail.data.all (fun c => decide (c ≠ '.')) = true)
    (hno : lookupTbl m.filenames name = none) :
    (∀ v, lookupTbl m.extensions (jsLower tail) = some v →
      getFileIcon m name = some v) ∧
    (lookupTbl m.extensions (jsLower tail) = none →
      getFileIcon m name = m.defaultFile) := by
  have hsplit : jsSplit name '.' = ["", tail] := by
    simp only [jsSplit, hshape, splitChars, splitChars_no_sep '.' tail.data htail,
      if_true, List.map_cons, List.map_nil, stringMkData]
  constructor
  · intro v hv
    simp only [getFileIcon, hno, hsplit]
    norm_num [hv]
  · intro hv
    simp only [getFileIcon, hno, hsplit]
    norm_num [hv]

/-- Witness for claim C10: ".env" resolves to the extension icon for "env". -/
theorem getFileIcon_leading_dot_extension_witness :
    getFileIcon mW ".env" = some "iconEnv" := by
  exact (getFileIcon_leading_dot_extension mW ".env" "env" (by decide) (by decide)
    (by decide)).1 "iconEnv" (by decide)

-- ---------------------------------------------------------------------------
-- Claim C9
-- ---------------------------------------------------------------------------

theorem fileBlockEndAux_spec :
    ∀ (cs : List Char) (i : Nat) (count : Int) (inB : Bool) (j : Nat),
    fileBlockEndAux cs i count inB = some j →
    ∃ k, k < cs.length ∧ j = i + k ∧ cs.getD k ' ' = closeBrace ∧
      count + (openCount (cs.take (k + 1)) : Int) - (closeCount (cs.take (k + 1)) : Int) = 0 ∧
      (inB = true ∨ 0 < openCount (cs.take (k + 1))) := by
  have hoo : openBrace ≠ closeBrace := by decide
  intro cs
  induction cs with
  | nil => intro i count inB j h; simp [fileBlockEndAux] at h
  | cons c rest ih =>
    intro i count inB j h
    by_cases hco : c = openBrace
    · simp only [fileBlockEndAux, if_pos hco] at h
      obtain ⟨k, hk, hj, hget, hcount, _⟩ := ih (i + 1) (count + 1) true j h
      have ho : openCount (c :: rest.take (k + 1)) = openCount (rest.take (k + 1)) + 1 := by
        simp [openCount, List.countP_cons, hco]
      have hc : closeCount (c :: rest.take (k + 1)) = closeCount (rest.take (k + 1)) := by
        simp [closeCount, List.countP_cons, hco, hoo]
      refine ⟨k + 1, ?_, by omega, by simpa using hget, ?_, ?_⟩
      · simp only [List.length_cons]; omega
      · rw [List.take_succ_cons, ho, hc]; omega
      · right; rw [List.take_succ_cons, ho]; omega
    · by_cases hcc : c = closeBrace
      · simp only [fileBlockEndAux, if_neg hco, if_pos hcc] at h
        by_cases hbrk : inB ∧ count - 1 = 0
        · rw [if_pos hbrk] at h
          obtain ⟨hin, hcnt⟩ := hbrk
          have hij : i = j := by simpa using h
          subst hij
          have ho : openCount (List.take 1 (c :: rest)) = 0 := by
            simp [openCount, List.countP_cons, hcc, Ne.symm hoo]
          have hc : closeCount (List.take 1 (c :: rest)) = 1 := by
            simp [closeCount, List.countP_cons, hcc]
          refine ⟨0, by simp, by omega, by simpa using hcc, ?_, Or.inl hin⟩
          rw [Nat.zero_add, ho, hc]
          omega
        · rw [if_neg hbrk] at h
          obtain ⟨k, hk, hj, hget, hcount, hdis⟩ := ih (i + 1) (count - 1) inB j h
          have ho : openCount (c :: rest.take (k + 1)) = openCount (rest.take (k + 1)) := by
            simp [openCount, List.countP_cons, hcc, Ne.symm hoo]
          have hc : closeCount (c :: rest.take (k + 1)) = closeCount (rest.take (k + 1)) + 1 := by
            simp [closeCount, List.countP_cons, hcc]
          refine ⟨k + 1, ?_, by omega, by simpa using hget, ?_, ?_⟩
          · simp only [List.length_cons]; omega
          · rw [List.take_succ_cons, ho, hc]; omega
          · rcases hdis with hdis | hdis
            · exact Or.inl hdis
            · right; rw [List.take_succ_cons, ho]; omega
      · simp only [fileBlockEndAux, if_neg hco, if_neg hcc] at h
        obtain ⟨k, hk, hj, hget, hcount, hdis⟩ := ih (i + 1) count inB j h
        have ho : openCount (c :: rest.take (k + 1)) = openCount (rest.take (k + 1)) := by
          simp [openCount, List.countP_cons, hco]
        have hc : closeCount (c :: rest.take (k + 1)) = closeCount (rest.take (k + 1)) := by
          simp [closeCount, List.countP_cons, hcc]
        refine ⟨k + 1, ?_, by omega, by simpa using hget, ?_, ?_⟩
        · simp only [List.length_cons]; omega
        · rw [List.take_succ_cons, ho, hc]; omega
        · rcases hdis with hdis | hdis
          · exact Or.inl hdis
          · right; rw [List.take_succ_cons, ho]; omega
theorem folderBlockEndAux_spec :
    ∀ (cs : List Char) (i : Nat) (j : Nat),
    folderBlockEndAux cs i = some j →
    ∃ k, k < cs.length ∧ j = i + k ∧ cs.getD k ' ' = closeBrace ∧
      ∀ k', k' < k → cs.getD k' ' ' ≠ closeBrace := by
  intro cs
  induction cs with
  | nil => intro i j h; simp [folderBlockEndAux] at h
  | cons c rest ih =>
    intro i j h
    by_cases hcc : c = closeBrace
    · simp only [folderBlockEndAux, if_pos hcc, Option.some.injEq] at h
      exact ⟨0, by simp, by omega, by simpa using hcc, by omega⟩
    · simp only [folderBlockEndAux, if_neg hcc] at h
      obtain ⟨k, hk, hj, hget, hmin⟩ := ih (i + 1) j h
      refine ⟨k + 1, by simp only [List.length_cons]; omega, by omega,
        by simpa using hget, ?_⟩
      intro k' hk'
      match k' with
      | 0 => simpa using hcc
      | Nat.succ k'' =>
        have : k'' < k := by omega
        simpa using hmin k'' this

/-- Claim C9, counterexample.  The claim states that folder icon records,
like file icon records, have their end found by tracking brace nesting
depth.  On a record content with a nested brace pair the folder extraction
(folderBlockEnd, a first-closing-brace scan) stops at index 3, inside the
record, where the braces opened so far are not yet balanced, while the
depth-tracking file extraction (fileBlockEnd) finds the true end 5. -/
theorem folder_block_end_counterexample :
    folderBlockEnd exC9 = some 3 ∧
    fileBlockEnd exC9 = some 5 ∧
    ¬ folderBlockEnd exC9 = fileBlockEnd exC9 ∧
    ¬ openCount (exC9.take 4) = closeCount (exC9.take 4) := by
  decide

/-- Claim C9, amended: when parsing the TypeScript upstream format, FILE
icon record extraction finds the record end by tracking brace nesting
depth — the index it returns carries a closing brace at which the opened
braces are exactly balanced (and at least one brace was opened) — whereas
FOLDER icon record extraction stops at the first closing brace after the
record start, without any depth tracking. -/
theorem block_end_depth_vs_first_close :
    (∀ (cs : List Char) (j : Nat), fileBlockEnd cs = some j →
      j < cs.length ∧ cs.getD j ' ' = closeBrace ∧
      openCount (cs.take (j + 1)) = closeCount (cs.take (j + 1)) ∧
      0 < openCount (cs.take (j + 1))) ∧
    (∀ (cs : List Char) (j : Nat), folderBlockEnd cs = some j →
      j < cs.length ∧ cs.getD j ' ' = closeBrace ∧
      ∀ k, k < j → cs.getD k ' ' ≠ closeBrace) := by
  constructor
  · intro cs j h
    obtain ⟨k, hk, hj, hget, hcount, hdis⟩ := fileBlockEndAux_spec cs 0 0 false j h
    have hjk : j = k := by omega
    subst hjk
    refine ⟨hk, hget, ?_, ?_⟩
    · omega
    · rcases hdis with hdis | hdis
      · exact absurd hdis (by simp)
      · exact hdis
  · intro cs j h
    obtain ⟨k, hk, hj, hget, hmin⟩ := folderBlockEndAux_spec cs 0 j h
    have hjk : j = k := by omega
    subst hjk
    exact ⟨hk, hget, hmin⟩

/-- Witness for the amended claim C9 at the concrete nested-brace content. -/
theorem block_end_depth_vs_first_close_witness :
    (5 < exC9.length ∧ exC9.getD 5 ' ' = closeBrace ∧
      openCount (exC9.take 6) = closeCount (exC9.take 6) ∧
      0 < openCount (exC9.take 6)) ∧
    (3 < exC9.length ∧ exC9.getD 3 ' ' = closeBrace ∧
      ∀ k, k < 3 → exC9.getD k ' ' ≠ closeBrace) :=
  ⟨block_end_depth_vs_first_close.1 exC9 5 (by decide),
   block_end_depth_vs_first_close.2 exC9 3 (by decide)⟩

-- ---------------------------------------------------------------------------
-- Flat child-list lemmas
-- ---------------------------------------------------------------------------

theorem hideSvg_idem (s : SvgElem) : hideSvg (hideSvg s) = hideSvg s := rfl

theorem isMarkerImg_createIconImg (icon : String) :
    isMarkerImg (createIconImg icon) = true := by
  simp [isMarkerImg, createIconImg]

theorem isHiddenSvg_hideSvg (s : SvgElem) :
    isHiddenSvg (.svgF (hideSvg s)) = true := by
  simp [isHiddenSvg, hideSvg]

theorem findSvgP_some_prop (p : SvgElem → Bool) :
    ∀ l s, findSvgP p l = some s → p s = true := by
  intro l
  induction l with
  | nil => intro s h; simp [findSvgP] at h
  | cons n xs ih =>
    intro s h
    cases n with
    | svgF t =>
      by_cases hpt : p t = true
      · simp only [findSvgP, if_pos hpt, Option.some.injEq] at h
        subst h; exact hpt
      · simp only [findSvgP, if_neg hpt] at h
        exact ih s h
    | imgF src cls => simp only [findSvgP] at h; exact ih s h
    | otherF => simp only [findSvgP] at h; exact ih s h

theorem findSvgP_hideInsertAfterP (p : SvgElem → Bool)
    (hp : ∀ s, p (hideSvg s) = p s) (icon : String) :
    ∀ l s, findSvgP p l = some s →
    findSvgP p (hideInsertAfterP p icon l) = some (hideSvg s) := by
  intro l
  induction l with
  | nil => intro s h; simp [findSvgP] at h
  | cons n xs ih =>
    intro s h
    cases n with
    | svgF t =>
      by_cases hpt : p t = true
      · simp only [findSvgP, if_pos hpt, Option.some.injEq] at h
        subst h
        simp [hideInsertAfterP, if_pos hpt, findSvgP, hp, hpt]
      · simp only [findSvgP, if_neg hpt] at h
        simp [hideInsertAfterP, if_neg hpt, findSvgP, hpt, ih s h]
    | imgF src cls =>
      simp only [findSvgP] at h
      simp [hideInsertAfterP, findSvgP, ih s h]
    | otherF =>
      simp only [findSvgP] at h
      simp [hideInsertAfterP, findSvgP, ih s h]

theorem nextIsMarkerP_hideInsertAfterP (p : SvgElem → Bool)
    (hp : ∀ s, p (hideSvg s) = p s) (icon : String) :
    ∀ l s, findSvgP p l = some s →
    nextIsMarkerP p (hideInsertAfterP p icon l) = true := by
  intro l
  induction l with
  | nil => intro s h; simp [findSvgP] at h
  | cons n xs ih =>
    intro s h
    cases n with
    | svgF t =>
      by_cases hpt : p t = true
      · simp [hideInsertAfterP, if_pos hpt, nextIsMarkerP, hp, hpt,
          isMarkerImg_createIconImg]
      · simp only [findSvgP, if_neg hpt] at h
        simp [hideInsertAfterP, if_neg hpt, nextIsMarkerP, hpt, ih s h]
    | imgF src cls =>
      simp only [findSvgP] at h
      simp [hideInsertAfterP, nextIsMarkerP, ih s h]
    | otherF =>
      simp only [findSvgP] at h
      simp [hideInsertAfterP, nextIsMarkerP, ih s h]

theorem anyMarker_hideInsertAfterP (p : SvgElem → Bool) (icon : String) :
    ∀ l s, findSvgP p l = some s →
    (hideInsertAfterP p icon l).any isMarkerImg = true := by
  intro l
  induction l with
  | nil => intro s h; simp [findSvgP] at h
  | cons n xs ih =>
    intro s h
    cases n with
    | svgF t =>
      by_cases hpt : p t = true
      · simp [hideInsertAfterP, if_pos hpt, List.any_cons, isMarkerImg_createIconImg]
      · simp only [findSvgP, if_neg hpt] at h
        simp [hideInsertAfterP, if_neg hpt, List.any_cons, ih s h]
    | imgF src cls =>
      simp only [findSvgP] at h
      simp [hideInsertAfterP, List.any_cons, ih s h]
    | otherF =>
      simp only [findSvgP] at h
      simp [hideInsertAfterP, List.any_cons, ih s h]

theorem markerCountP_hideInsertAfterP (p : SvgElem → Bool) (icon : String) :
    ∀ l s, findSvgP p l = some s →
    markerCountP (hideInsertAfterP p icon l) = markerCountP l + 1 := by
  intro l
  induction l with
  | nil => intro s h; simp [findSvgP] at h
  | cons n xs ih =>
    intro s h
    cases n with
    | svgF t =>
      by_cases hpt : p t = true
      · simp [hideInsertAfterP, if_pos hpt, markerCountP, List.countP_cons,
          createIconImg, isMarkerImg]
      · simp only [findSvgP, if_neg hpt] at h
        simp only [hideInsertAfterP, if_neg hpt, markerCountP, List.countP_cons] at *
        have := ih s h
        omega
    | imgF src cls =>
      simp only [findSvgP] at h
      simp only [hideInsertAfterP, markerCountP, List.countP_cons] at *
      have := ih s h
      omega
    | otherF =>
      simp only [findSvgP] at h
      simp only [hideInsertAfterP, markerCountP, List.countP_cons] at *
      have := ih s h
      omega

theorem hiddenCountP_hideInsertAfterP (p : SvgElem → Bool) (icon : String) :
    ∀ l s, hiddenCountP l = 0 → findSvgP p l = some s →
    hiddenCountP (hideInsertAfterP p icon l) = 1 := by
  intro l
  induction l with
  | nil => intro s _ h; simp [findSvgP] at h
  | cons n xs ih =>
    intro s h0 h
    cases n with
    | svgF t =>
      by_cases hpt : p t = true
      · simp only [hiddenCountP, List.countP_cons] at h0
        have hx : List.countP isHiddenSvg xs = 0 := by omega
        simp only [hideInsertAfterP, if_pos hpt, hiddenCountP, List.countP_cons,
          isHiddenSvg_hideSvg, show isHiddenSvg (createIconImg icon) = false from rfl,
          if_true, Bool.false_eq_true, if_false, hx]
      · simp only [findSvgP, if_neg hpt] at h
        simp only [hiddenCountP, List.countP_cons] at h0
        have hx : hiddenCountP xs = 0 := by simp only [hiddenCountP]; omega
        simp only [hideInsertAfterP, if_neg hpt, hiddenCountP, List.countP_cons]
        have := ih s hx h
        simp only [hiddenCountP] at this
        omega
    | imgF src cls =>
      simp only [findSvgP] at h
      simp only [hiddenCountP, List.countP_cons] at h0
      have hx : hiddenCountP xs = 0 := by simp only [hiddenCountP]; omega
      simp only [hideInsertAfterP, hiddenCountP, List.countP_cons]
      have := ih s hx h
      simp only [hiddenCountP] at this
      omega
    | otherF =>
      simp only [findSvgP] at h
      simp only [hiddenCountP, List.countP_cons] at h0
      have hx : hiddenCountP xs = 0 := by simp only [hiddenCountP]; omega
      simp only [hideInsertAfterP, hiddenCountP, List.countP_cons]
      have := ih s hx h
      simp only [hiddenCountP] at this
      omega

theorem markerFreeP_not_marker (l : List FlatNode) (h : markerCountP l = 0) :
    ∀ n ∈ l, isMarkerImg n = false := by
  intro n hn
  by_cases hb : isMarkerImg n = true
  · exfalso
    have hpos : 0 < markerCountP l := by
      simp only [markerCountP]
      exact List.countP_pos_iff.mpr ⟨n, hn, hb⟩
    omega
  · simpa using hb

theorem removeMarkersP_of_markerFree :
    ∀ l, markerCountP l = 0 → removeMarkersP l = l := by
  intro l
  induction l with
  | nil => intro _; rfl
  | cons n xs ih =>
    intro h
    simp only [markerCountP, List.countP_cons] at h
    have hn : isMarkerImg n = false := by
      by_cases hb : isMarkerImg n = true
      · simp [hb] at h
      · simpa using hb
    have hx : markerCountP xs = 0 := by simp only [markerCountP]; omega
    simp [removeMarkersP, List.filter_cons, hn] at *
    simpa [removeMarkersP, List.filter_cons, hn] using ih hx

theorem removeMarkersP_hideInsertAfterP (p : SvgElem → Bool) (icon : String) :
    ∀ l s, markerCountP l = 0 → findSvgP p l = some s →
    removeMarkersP (hideInsertAfterP p icon l) = hideFirstP p l := by
  intro l
  induction l with
  | nil => intro s _ h; simp [findSvgP] at h
  | cons n xs ih =>
    intro s h0 h
    simp only [markerCountP, List.countP_cons] at h0
    have hx : markerCountP xs = 0 := by simp only [markerCountP]; omega
    cases n with
    | svgF t =>
      by_cases hpt : p t = true
      · simp [hideInsertAfterP, if_pos hpt, hideFirstP, removeMarkersP,
          List.filter_cons, isMarkerImg, createIconImg,
          removeMarkersP_of_markerFree xs hx]
        intro a ha
        simpa [isMarkerImg] using markerFreeP_not_marker xs hx a ha
      · simp only [findSvgP, if_neg hpt] at h
        simp [hideInsertAfterP, if_neg hpt, hideFirstP, removeMarkersP,
          List.filter_cons, isMarkerImg] at *
        simpa [removeMarkersP] using ih s hx h
    | imgF src cls =>
      simp only [findSvgP] at h
      have hn : isMarkerImg (FlatNode.imgF src cls) = false := by
        by_cases hb : isMarkerImg (FlatNode.imgF src cls) = true
        · simp [hb] at h0
        · simpa using hb
      simp only [hideInsertAfterP, hideFirstP, removeMarkersP, List.filter_cons, hn]
      simpa [removeMarkersP] using ih s hx h
    | otherF =>
      simp only [findSvgP] at h
      simp only [hideInsertAfterP, hideFirstP, removeMarkersP, List.filter_cons]
      simp only [show isMarkerImg FlatNode.otherF = false from rfl]
      simpa [removeMarkersP] using ih s hx h

theorem findSvgP_hideFirstP_general (p q : SvgElem → Bool)
    (hp : ∀ s, p (hideSvg s) = p s) (hpq : ∀ s, q s = true → p s = true) :
    ∀ l, findSvgP p (hideFirstP q l) =
      (findSvgP p l).map (fun s => if q s then hideSvg s else s) := by
  intro l
  induction l with
  | nil => simp [findSvgP, hideFirstP]
  | cons n xs ih =>
    cases n with
    | svgF t =>
      by_cases hqt : q t = true
      · have hpt : p t = true := hpq t hqt
        simp [hideFirstP, if_pos hqt, findSvgP, hp, hpt, hqt]
      · by_cases hpt : p t = true
        · simp [hideFirstP, if_neg hqt, findSvgP, hpt, hqt]
        · simp [hideFirstP, if_neg hqt, findSvgP, hpt, ih]
    | imgF src cls => simp [hideFirstP, findSvgP, ih]
    | otherF => simp [hideFirstP, findSvgP, ih]

theorem markerCountP_hideFirstP (q : SvgElem → Bool) :
    ∀ l, markerCountP (hideFirstP q l) = markerCountP l := by
  intro l
  induction l with
  | nil => rfl
  | cons n xs ih =>
    cases n with
    | svgF t =>
      by_cases hqt : q t = true
      · simp [hideFirstP, if_pos hqt, markerCountP, List.countP_cons, isMarkerImg]
      · simp only [hideFirstP, if_neg hqt, markerCountP, List.countP_cons]
        simp only [markerCountP] at ih
        omega
    | imgF src cls =>
      simp only [hideFirstP, markerCountP, List.countP_cons]
      simp only [markerCountP] at ih
      omega
    | otherF =>
      simp only [hideFirstP, markerCountP, List.countP_cons]
      simp only [markerCountP] at ih
      omega

theorem anyMarker_hideFirstP (q : SvgElem → Bool) :
    ∀ l, (hideFirstP q l).any isMarkerImg = l.any isMarkerImg := by
  intro l
  induction l with
  | nil => rfl
  | cons n xs ih =>
    cases n with
    | svgF t =>
      by_cases hqt : q t = true
      · simp [hideFirstP, if_pos hqt, List.any_cons, isMarkerImg]
      · simp [hideFirstP, if_neg hqt, List.any_cons, ih]
    | imgF src cls => simp [hideFirstP, List.any_cons, ih]
    | otherF => simp [hideFirstP, List.any_cons, ih]

theorem hiddenCountP_hideFirstP_found (q : SvgElem → Bool) :
    ∀ l s, hiddenCountP l = 0 → findSvgP q l = some s →
    hiddenCountP (hideFirstP q l) = 1 := by
  intro l
  induction l with
  | nil => intro s _ h; simp [findSvgP] at h
  | cons n xs ih =>
    intro s h0 h
    simp only [hiddenCountP, List.countP_cons] at h0
    have hx : hiddenCountP xs = 0 := by simp only [hiddenCountP]; omega
    cases n with
    | svgF t =>
      by_cases hqt : q t = true
      · simp only [hiddenCountP] at hx
        simp only [hideFirstP, if_pos hqt, hiddenCountP, List.countP_cons,
          isHiddenSvg_hideSvg, if_true, hx]
      · simp only [findSvgP, if_neg hqt] at h
        simp only [hideFirstP, if_neg hqt, hiddenCountP, List.countP_cons]
        have := ih s hx h
        simp only [hiddenCountP] at this
        omega
    | imgF src cls =>
      simp only [findSvgP] at h
      simp only [hideFirstP, hiddenCountP, List.countP_cons]
      have := ih s hx h
      simp only [hiddenCountP] at this
      omega
    | otherF =>
      simp only [findSvgP] at h
      simp only [hideFirstP, hiddenCountP, List.countP_cons]
      have := ih s hx h
      simp only [hiddenCountP] at this
      omega

theorem nextIsMarkerP_of_markerFree (p : SvgElem → Bool) :
    ∀ l, markerCountP l = 0 → nextIsMarkerP p l = false := by
  intro l
  induction l with
  | nil => intro _; rfl
  | cons n xs ih =>
    intro h
    simp only [markerCountP, List.countP_cons] at h
    have hx : markerCountP xs = 0 := by simp only [markerCountP]; omega
    cases n with
    | svgF t =>
      by_cases hpt : p t = true
      · simp only [nextIsMarkerP, if_pos hpt]
        cases xs with
        | nil => rfl
        | cons y ys =>
          have hy : isMarkerImg y = false :=
            markerFreeP_not_marker _ hx y (by simp)
          simpa using hy
      · simp [nextIsMarkerP, if_neg hpt, ih hx]
    | imgF src cls => simp [nextIsMarkerP, ih hx]
    | otherF => simp [nextIsMarkerP, ih hx]

theorem anyMarkerP_of_markerFree :
    ∀ l : List FlatNode, markerCountP l = 0 → l.any isMarkerImg = false := by
  intro l h
  rw [List.any_eq_false]
  intro n hn
  have := markerFreeP_not_marker l h n hn
  simp [this]

theorem hideFirstP_hideInsertAfterP (p : SvgElem → Bool)
    (hp : ∀ s, p (hideSvg s) = p s) (icon : String) :
    ∀ l s, findSvgP p l = some s →
    hideFirstP p (hideInsertAfterP p icon l) = hideInsertAfterP p icon l := by
  intro l
  induction l with
  | nil => intro s h; simp [findSvgP] at h
  | cons n xs ih =>
    intro s h
    cases n with
    | svgF t =>
      by_cases hpt : p t = true
      · simp [hideInsertAfterP, if_pos hpt, hideFirstP, hp, hpt, hideSvg_idem]
      · simp only [findSvgP, if_neg hpt] at h
        simp [hideInsertAfterP, if_neg hpt, hideFirstP, hpt, ih s h]
    | imgF src cls =>
      simp only [findSvgP] at h
      simp [hideInsertAfterP, hideFirstP, ih s h]
    | otherF =>
      simp only [findSvgP] at h
      simp [hideInsertAfterP, hideFirstP, ih s h]

-- ---------------------------------------------------------------------------
-- Filename-column child-list lemmas: direct-child (non-Refined-GitHub) branch
-- ---------------------------------------------------------------------------

theorem removeMarkersC_of_markerFree :
    ∀ cs, markerCountC cs = 0 → removeMarkersC cs = cs := by
  intro cs
  induction cs with
  | nil => intro _; rfl
  | cons c xs ih =>
    intro h
    cases c with
    | top n =>
      simp only [markerCountC] at h
      have hn : isMarkerImg n = false := by
        by_cases hb : isMarkerImg n = true
        · simp [hb] at h
        · simpa using hb
      have hx : markerCountC xs = 0 := by omega
      simp [removeMarkersC, hn, ih hx]
    | editLinkNode ch =>
      simp only [markerCountC] at h
      have hch : markerCountP ch = 0 := by omega
      have hx : markerCountC xs = 0 := by omega
      simp [removeMarkersC, removeMarkersP_of_markerFree ch hch, ih hx]

theorem findFileSvgC_hideInsertTopC (icon : String) :
    ∀ cs s, findFileSvgC cs = some (.atTop s) →
    findFileSvgC (hideInsertTopC icon cs) = some (.atTop (hideSvg s)) := by
  intro cs
  induction cs with
  | nil => intro s h; simp [findFileSvgC] at h
  | cons c xs ih =>
    intro s h
    cases c with
    | top n =>
      cases n with
      | svgF t =>
        by_cases hf : fileClassSvg t = true
        · simp only [findFileSvgC, if_pos hf, Option.some.injEq, SvgLoc.atTop.injEq] at h
          subst h
          have hf2 : fileClassSvg (hideSvg t) = true := hf
          simp [hideInsertTopC, if_pos hf, findFileSvgC, hf2]
        · simp only [findFileSvgC, if_neg hf] at h
          simp [hideInsertTopC, if_neg hf, findFileSvgC, hf, ih s h]
      | imgF src cls =>
        simp only [findFileSvgC] at h
        simp [hideInsertTopC, findFileSvgC, ih s h]
      | otherF =>
        simp only [findFileSvgC] at h
        simp [hideInsertTopC, findFileSvgC, ih s h]
    | editLinkNode ch =>
      cases hfs : findSvgP fileClassSvg ch with
      | some u => simp [findFileSvgC, hfs] at h
      | none =>
        simp only [findFileSvgC, hfs] at h
        simp [hideInsertTopC, hfs, findFileSvgC, ih s h]

theorem markerNextTopC_hideInsertTopC (icon : String) :
    ∀ cs s, findFileSvgC cs = some (.atTop s) →
    markerNextTopC (hideInsertTopC icon cs) = true := by
  intro cs
  induction cs with
  | nil => intro s h; simp [findFileSvgC] at h
  | cons c xs ih =>
    intro s h
    cases c with
    | top n =>
      cases n with
      | svgF t =>
        by_cases hf : fileClassSvg t = true
        · have hf2 : fileClassSvg (hideSvg t) = true := hf
          simp [hideInsertTopC, if_pos hf, markerNextTopC, hf2,
            isMarkerImg_createIconImg]
        · simp only [findFileSvgC, if_neg hf] at h
          simp [hideInsertTopC, if_neg hf, markerNextTopC, hf, ih s h]
      | imgF src cls =>
        simp only [findFileSvgC] at h
        simp [hideInsertTopC, markerNextTopC, ih s h]
      | otherF =>
        simp only [findFileSvgC] at h
        simp [hideInsertTopC, markerNextTopC, ih s h]
    | editLinkNode ch =>
      cases hfs : findSvgP fileClassSvg ch with
      | some u => simp [findFileSvgC, hfs] at h
      | none =>
        simp only [findFileSvgC, hfs] at h
        simp [hideInsertTopC, hfs, markerNextTopC, ih s h]

theorem markerCountC_hideInsertTopC (icon : String) :
    ∀ cs s, findFileSvgC cs = some (.atTop s) →
    markerCountC (hideInsertTopC icon cs) = markerCountC cs + 1 := by
  intro cs
  induction cs with
  | nil => intro s h; simp [findFileSvgC] at h
  | cons c xs ih =>
    intro s h
    cases c with
    | top n =>
      cases n with
      | svgF t =>
        by_cases hf : fileClassSvg t = true
        · simp only [hideInsertTopC, if_pos hf, markerCountC,
            isMarkerImg_createIconImg, if_true,
            show isMarkerImg (FlatNode.svgF (hideSvg t)) = false from rfl,
            show isMarkerImg (FlatNode.svgF t) = false from rfl,
            Bool.false_eq_true, if_false]
          omega
        · simp only [findFileSvgC, if_neg hf] at h
          simp only [hideInsertTopC, if_neg hf, markerCountC]
          have := ih s h
          omega
      | imgF src cls =>
        simp only [findFileSvgC] at h
        simp only [hideInsertTopC, markerCountC]
        have := ih s h
        omega
      | otherF =>
        simp only [findFileSvgC] at h
        simp only [hideInsertTopC, markerCountC]
        have := ih s h
        omega
    | editLinkNode ch =>
      cases hfs : findSvgP fileClassSvg ch with
      | some u => simp [findFileSvgC, hfs] at h
      | none =>
        simp only [findFileSvgC, hfs] at h
        simp only [hideInsertTopC, hfs, Option.isSome_none, Bool.false_eq_true,
          if_false, markerCountC]
        have := ih s h
        omega

theorem hiddenCountC_hideInsertTopC (icon : String) :
    ∀ cs s, hiddenCountC cs = 0 → findFileSvgC cs = some (.atTop s) →
    hiddenCountC (hideInsertTopC icon cs) = 1 := by
  intro cs
  induction cs with
  | nil => intro s _ h; simp [findFileSvgC] at h
  | cons c xs ih =>
    intro s h0 h
    cases c with
    | top n =>
      simp only [hiddenCountC] at h0
      have hx : hiddenCountC xs = 0 := by omega
      cases n with
      | svgF t =>
        by_cases hf : fileClassSvg t = true
        · simp only [hideInsertTopC, if_pos hf, hiddenCountC,
            isHiddenSvg_hideSvg, if_true,
            show isHiddenSvg (createIconImg icon) = false from rfl,
            Bool.false_eq_true, if_false, hx]
        · simp only [findFileSvgC, if_neg hf] at h
          simp only [hideInsertTopC, if_neg hf, hiddenCountC, ih s hx h]
          omega
      | imgF src cls =>
        simp only [findFileSvgC] at h
        simp only [hideInsertTopC, hiddenCountC, ih s hx h]
        omega
      | otherF =>
        simp only [findFileSvgC] at h
        simp only [hideInsertTopC, hiddenCountC, ih s hx h]
        omega
    | editLinkNode ch =>
      simp only [hiddenCountC] at h0
      have hx : hiddenCountC xs = 0 := by omega
      cases hfs : findSvgP fileClassSvg ch with
      | some u => simp [findFileSvgC, hfs] at h
      | none =>
        simp only [findFileSvgC, hfs] at h
        simp only [hideInsertTopC, hfs, Option.isSome_none, Bool.false_eq_true,
          if_false, hiddenCountC, ih s hx h]
        omega

theorem removeMarkersC_hideInsertTopC (icon : String) :
    ∀ cs s, markerCountC cs = 0 → findFileSvgC cs = some (.atTop s) →
    removeMarkersC (hideInsertTopC icon cs) = hideTopC cs := by
  intro cs
  induction cs with
  | nil => intro s _ h; simp [findFileSvgC] at h
  | cons c xs ih =>
    intro s h0 h
    cases c with
    | top n =>
      simp only [markerCountC] at h0
      have hx : markerCountC xs = 0 := by omega
      cases n with
      | svgF t =>
        by_cases hf : fileClassSvg t = true
        · simp [hideInsertTopC, if_pos hf, removeMarkersC, hideTopC,
            isMarkerImg, createIconImg, removeMarkersC_of_markerFree xs hx]
        · simp only [findFileSvgC, if_neg hf] at h
          simp [hideInsertTopC, if_neg hf, removeMarkersC, hideTopC,
            isMarkerImg, ih s hx h]
      | imgF src cls =>
        simp only [findFileSvgC] at h
        have hn : isMarkerImg (FlatNode.imgF src cls) = false := by
          by_cases hb : isMarkerImg (FlatNode.imgF src cls) = true
          · simp [hb] at h0
          · simpa using hb
        simp [hideInsertTopC, removeMarkersC, hideTopC, hn, ih s hx h]
      | otherF =>
        simp only [findFileSvgC] at h
        simp [hideInsertTopC, removeMarkersC, hideTopC,
          show isMarkerImg FlatNode.otherF = false from rfl, ih s hx h]
    | editLinkNode ch =>
      simp only [markerCountC] at h0
      have hch : markerCountP ch = 0 := by omega
      have hx : markerCountC xs = 0 := by omega
      cases hfs : findSvgP fileClassSvg ch with
      | some u => simp [findFileSvgC, hfs] at h
      | none =>
        simp only [findFileSvgC, hfs] at h
        simp [hideInsertTopC, hideTopC, hfs, removeMarkersC,
          removeMarkersP_of_markerFree ch hch, ih s hx h]

theorem findFileSvgC_hideTopC :
    ∀ cs s, findFileSvgC cs = some (.atTop s) →
    findFileSvgC (hideTopC cs) = some (.atTop (hideSvg s)) := by
  intro cs
  induction cs with
  | nil => intro s h; simp [findFileSvgC] at h
  | cons c xs ih =>
    intro s h
    cases c with
    | top n =>
      cases n with
      | svgF t =>
        by_cases hf : fileClassSvg t = true
        · simp only [findFileSvgC, if_pos hf, Option.some.injEq, SvgLoc.atTop.injEq] at h
          subst h
          have hf2 : fileClassSvg (hideSvg t) = true := hf
          simp [hideTopC, if_pos hf, findFileSvgC, hf2]
        · simp only [findFileSvgC, if_neg hf] at h
          simp [hideTopC, if_neg hf, findFileSvgC, hf, ih s h]
      | imgF src cls =>
        simp only [findFileSvgC] at h
        simp [hideTopC, findFileSvgC, ih s h]
      | otherF =>
        simp only [findFileSvgC] at h
        simp [hideTopC, findFileSvgC, ih s h]
    | editLinkNode ch =>
      cases hfs : findSvgP fileClassSvg ch with
      | some u => simp [findFileSvgC, hfs] at h
      | none =>
        simp only [findFileSvgC, hfs] at h
        simp [hideTopC, hfs, findFileSvgC, ih s h]

theorem markerCountC_hideTopC :
    ∀ cs, markerCountC (hideTopC cs) = markerCountC cs := by
  intro cs
  induction cs with
  | nil => rfl
  | cons c xs ih =>
    cases c with
    | top n =>
      cases n with
      | svgF t =>
        by_cases hf : fileClassSvg t = true
        · simp [hideTopC, if_pos hf, markerCountC, isMarkerImg]
        · simp only [hideTopC, if_neg hf, markerCountC, ih]
      | imgF src cls => simp only [hideTopC, markerCountC, ih]
      | otherF => simp only [hideTopC, markerCountC, ih]
    | editLinkNode ch =>
      cases hfs : findSvgP fileClassSvg ch with
      | some u => simp [hideTopC, hfs]
      | none => simp only [hideTopC, hfs, Option.isSome_none, Bool.false_eq_true,
          if_false, markerCountC, ih]

theorem markerFreeC_isMarkerC (c : CNode) (h : markerCountC [c] = 0) :
    isMarkerC c = false := by
  cases c with
  | top n =>
    simp only [markerCountC] at h
    by_cases hb : isMarkerImg n = true
    · simp [hb] at h
    · simpa [isMarkerC] using hb
  | editLinkNode ch => rfl

theorem markerNextTopC_of_markerFree :
    ∀ cs, markerCountC cs = 0 → markerNextTopC cs = false := by
  intro cs
  induction cs with
  | nil => intro _; rfl
  | cons c xs ih =>
    intro h
    cases c with
    | top n =>
      simp only [markerCountC] at h
      have hx : markerCountC xs = 0 := by omega
      cases n with
      | svgF t =>
        by_cases hf : fileClassSvg t = true
        · simp only [markerNextTopC, if_pos hf]
          cases xs with
          | nil => rfl
          | cons y ys =>
            cases y with
            | top n2 =>
              simp only [markerCountC] at hx
              by_cases hb : isMarkerImg n2 = true
              · simp [hb] at hx
              · simpa using hb
            | editLinkNode ch2 => rfl
        · simp [markerNextTopC, if_neg hf, ih hx]
      | imgF src cls => simp [markerNextTopC, ih hx]
      | otherF => simp [markerNextTopC, ih hx]
    | editLinkNode ch =>
      simp only [markerCountC] at h
      have hx : markerCountC xs = 0 := by omega
      cases hfs : findSvgP fileClassSvg ch with
      | some u => simp [markerNextTopC, hfs]
      | none => simp [markerNextTopC, hfs, ih hx]

theorem editHasExistingC_of_markerFree :
    ∀ cs, markerCountC cs = 0 → editHasExistingC cs = false := by
  intro cs
  induction cs with
  | nil => intro _; rfl
  | cons c xs ih =>
    intro h
    cases c with
    | top n =>
      simp only [markerCountC] at h
      have hx : markerCountC xs = 0 := by omega
      cases n with
      | svgF t =>
        by_cases hf : fileClassSvg t = true
        · simp [editHasExistingC, if_pos hf]
        · simp [editHasExistingC, if_neg hf, ih hx]
      | imgF src cls => simp [editHasExistingC, ih hx]
      | otherF => simp [editHasExistingC, ih hx]
    | editLinkNode ch =>
      simp only [markerCountC] at h
      have hch : markerCountP ch = 0 := by omega
      have hx : markerCountC xs = 0 := by omega
      cases hfs : findSvgP fileClassSvg ch with
      | some u => simp [editHasExistingC, hfs, anyMarkerP_of_markerFree ch hch]
      | none => simp [editHasExistingC, hfs, ih hx]

theorem removeOneMarkerAfterEditC_of_markerFree :
    ∀ cs, markerCountC cs = 0 → removeOneMarkerAfterEditC cs = cs := by
  intro cs
  induction cs with
  | nil => intro _; rfl
  | cons c xs ih =>
    intro h
    cases c with
    | top n =>
      simp only [markerCountC] at h
      have hx : markerCountC xs = 0 := by omega
      cases n with
      | svgF t =>
        by_cases hf : fileClassSvg t = true
        · simp [removeOneMarkerAfterEditC, if_pos hf]
        · simp [removeOneMarkerAfterEditC, if_neg hf, ih hx]
      | imgF src cls => simp [removeOneMarkerAfterEditC, ih hx]
      | otherF => simp [removeOneMarkerAfterEditC, ih hx]
    | editLinkNode ch =>
      simp only [markerCountC] at h
      have hx : markerCountC xs = 0 := by omega
      cases hfs : findSvgP fileClassSvg ch with
      | some u =>
        simp only [removeOneMarkerAfterEditC, hfs, Option.isSome_some, if_true]
        cases xs with
        | nil => rfl
        | cons y ys =>
          have hy : isMarkerC y = false := by
            cases y with
            | top n2 =>
              simp only [markerCountC] at hx
              by_cases hb : isMarkerImg n2 = true
              · simp [hb] at hx
              · simpa [isMarkerC] using hb
            | editLinkNode ch2 => rfl
          simp [hy]
      | none => simp [removeOneMarkerAfterEditC, hfs, ih hx]

-- ---------------------------------------------------------------------------
-- Filename-column child-list lemmas: Refined GitHub edit-link branch
-- ---------------------------------------------------------------------------

theorem fileClassSvg_hideSvg (s : SvgElem) :
    fileClassSvg (hideSvg s) = fileClassSvg s := rfl

theorem nonPencilFileSvg_hideSvg (s : SvgElem) :
    nonPencilFileSvg (hideSvg s) = nonPencilFileSvg s := rfl

theorem nonPencil_imp_fileClass (s : SvgElem) :
    nonPencilFileSvg s = true → fileClassSvg s = true := by
  simp only [nonPencilFileSvg, Bool.and_eq_true]
  intro h
  exact h.1

theorem findFileSvgC_removeMarkerRunAfterEditC :
    ∀ cs, findFileSvgC (removeMarkerRunAfterEditC cs) = findFileSvgC cs := by
  intro cs
  induction cs with
  | nil => rfl
  | cons c xs ih =>
    cases c with
    | top n =>
      cases n with
      | svgF t =>
        by_cases hf : fileClassSvg t = true
        · simp [removeMarkerRunAfterEditC, if_pos hf]
        · simp [removeMarkerRunAfterEditC, if_neg hf, findFileSvgC, hf, ih]
      | imgF src cls => simp [removeMarkerRunAfterEditC, findFileSvgC, ih]
      | otherF => simp [removeMarkerRunAfterEditC, findFileSvgC, ih]
    | editLinkNode ch =>
      cases hfs : findSvgP fileClassSvg ch with
      | some u => simp [removeMarkerRunAfterEditC, hfs, findFileSvgC]
      | none => simp [removeMarkerRunAfterEditC, hfs, findFileSvgC, ih]

theorem editHasExistingC_removeMarkerRunAfterEditC :
    ∀ cs, editHasExistingC (removeMarkerRunAfterEditC cs) = editHasExistingC cs := by
  intro cs
  induction cs with
  | nil => rfl
  | cons c xs ih =>
    cases c with
    | top n =>
      cases n with
      | svgF t =>
        by_cases hf : fileClassSvg t = true
        · simp [removeMarkerRunAfterEditC, if_pos hf]
        · simp [removeMarkerRunAfterEditC, if_neg hf, editHasExistingC, hf, ih]
      | imgF src cls => simp [removeMarkerRunAfterEditC, editHasExistingC, ih]
      | otherF => simp [removeMarkerRunAfterEditC, editHasExistingC, ih]
    | editLinkNode ch =>
      cases hfs : findSvgP fileClassSvg ch with
      | some u => simp [removeMarkerRunAfterEditC, hfs, editHasExistingC]
      | none => simp [removeMarkerRunAfterEditC, hfs, editHasExistingC, ih]

theorem findFileSvgC_removeOneMarkerAfterEditC :
    ∀ cs, findFileSvgC (removeOneMarkerAfterEditC cs) = findFileSvgC cs := by
  intro cs
  induction cs with
  | nil => rfl
  | cons c xs ih =>
    cases c with
    | top n =>
      cases n with
      | svgF t =>
        by_cases hf : fileClassSvg t = true
        · simp [removeOneMarkerAfterEditC, if_pos hf]
        · simp [removeOneMarkerAfterEditC, if_neg hf, findFileSvgC, hf, ih]
      | imgF src cls => simp [removeOneMarkerAfterEditC, findFileSvgC, ih]
      | otherF => simp [removeOneMarkerAfterEditC, findFileSvgC, ih]
    | editLinkNode ch =>
      cases hfs : findSvgP fileClassSvg ch with
      | some u =>
        cases xs with
        | nil => simp [removeOneMarkerAfterEditC, hfs, findFileSvgC]
        | cons y ys =>
          by_cases hy : isMarkerC y = true
          · simp [removeOneMarkerAfterEditC, hfs, hy, findFileSvgC]
          · simp [removeOneMarkerAfterEditC, hfs, hy, findFileSvgC]
      | none => simp [removeOneMarkerAfterEditC, hfs, findFileSvgC, ih]

theorem editHasExistingC_removeOneMarkerAfterEditC :
    ∀ cs, editHasExistingC (removeOneMarkerAfterEditC cs) = editHasExistingC cs := by
  intro cs
  induction cs with
  | nil => rfl
  | cons c xs ih =>
    cases c with
    | top n =>
      cases n with
      | svgF t =>
        by_cases hf : fileClassSvg t = true
        · simp [removeOneMarkerAfterEditC, if_pos hf]
        · simp [removeOneMarkerAfterEditC, if_neg hf, editHasExistingC, hf, ih]
      | imgF src cls => simp [removeOneMarkerAfterEditC, editHasExistingC, ih]
      | otherF => simp [removeOneMarkerAfterEditC, editHasExistingC, ih]
    | editLinkNode ch =>
      cases hfs : findSvgP fileClassSvg ch with
      | some u =>
        cases xs with
        | nil => simp [removeOneMarkerAfterEditC, hfs, editHasExistingC]
        | cons y ys =>
          by_cases hy : isMarkerC y = true
          · simp [removeOneMarkerAfterEditC, hfs, hy, editHasExistingC]
          · simp [removeOneMarkerAfterEditC, hfs, hy, editHasExistingC]
      | none => simp [removeOneMarkerAfterEditC, hfs, editHasExistingC, ih]

theorem editFileIconSvgC_removeOneMarkerAfterEditC :
    ∀ cs, editFileIconSvgC (removeOneMarkerAfterEditC cs) = editFileIconSvgC cs := by
  intro cs
  induction cs with
  | nil => rfl
  | cons c xs ih =>
    cases c with
    | top n =>
      cases n with
      | svgF t =>
        by_cases hf : fileClassSvg t = true
        · simp [removeOneMarkerAfterEditC, if_pos hf]
        · simp [removeOneMarkerAfterEditC, if_neg hf, editFileIconSvgC, hf, ih]
      | imgF src cls => simp [removeOneMarkerAfterEditC, editFileIconSvgC, ih]
      | otherF => simp [removeOneMarkerAfterEditC, editFileIconSvgC, ih]
    | editLinkNode ch =>
      cases hfs : findSvgP fileClassSvg ch with
      | some u =>
        cases xs with
        | nil => simp [removeOneMarkerAfterEditC, hfs, editFileIconSvgC]
        | cons y ys =>
          by_cases hy : isMarkerC y = true
          · simp [removeOneMarkerAfterEditC, hfs, hy, editFileIconSvgC]
          · simp [removeOneMarkerAfterEditC, hfs, hy, editFileIconSvgC]
      | none => simp [removeOneMarkerAfterEditC, hfs, editFileIconSvgC, ih]

theorem findSvgP_fileClass_rghChildren (icon : String) (ch : List FlatNode)
    (u : SvgElem) (hfs : findSvgP fileClassSvg ch = some u) :
    findSvgP fileClassSvg (createIconImg icon :: hideFirstP nonPencilFileSvg ch) =
      some (if nonPencilFileSvg u = true then hideSvg u else u) := by
  have hgen := findSvgP_hideFirstP_general fileClassSvg nonPencilFileSvg
    (fun s => rfl) nonPencil_imp_fileClass ch
  simp only [createIconImg, findSvgP, hgen, hfs]
  rfl

theorem findFileSvgC_rghInjectC (icon : String) :
    ∀ cs s, findFileSvgC cs = some (.inEdit s) →
    findFileSvgC (rghInjectC icon cs) =
      some (.inEdit (if nonPencilFileSvg s = true then hideSvg s else s)) := by
  intro cs
  induction cs with
  | nil => intro s h; simp [findFileSvgC] at h
  | cons c xs ih =>
    intro s h
    cases c with
    | top n =>
      cases n with
      | svgF t =>
        by_cases hf : fileClassSvg t = true
        · simp [findFileSvgC, if_pos hf] at h
        · simp only [findFileSvgC, if_neg hf] at h
          simp [rghInjectC, if_neg hf, findFileSvgC, hf, ih s h]
      | imgF src cls =>
        simp only [findFileSvgC] at h
        simp [rghInjectC, findFileSvgC, ih s h]
      | otherF =>
        simp only [findFileSvgC] at h
        simp [rghInjectC, findFileSvgC, ih s h]
    | editLinkNode ch =>
      cases hfs : findSvgP fileClassSvg ch with
      | some u =>
        simp only [findFileSvgC, hfs, Option.some.injEq, SvgLoc.inEdit.injEq] at h
        subst h
        simp [rghInjectC, hfs, findFileSvgC,
          findSvgP_fileClass_rghChildren icon ch u hfs]
      | none =>
        simp only [findFileSvgC, hfs] at h
        simp [rghInjectC, hfs, findFileSvgC, ih s h]

theorem editHasExistingC_rghInjectC (icon : String) :
    ∀ cs s, findFileSvgC cs = some (.inEdit s) →
    editHasExistingC (rghInjectC icon cs) = true := by
  intro cs
  induction cs with
  | nil => intro s h; simp [findFileSvgC] at h
  | cons c xs ih =>
    intro s h
    cases c with
    | top n =>
      cases n with
      | svgF t =>
        by_cases hf : fileClassSvg t = true
        · simp [findFileSvgC, if_pos hf] at h
        · simp only [findFileSvgC, if_neg hf] at h
          simp [rghInjectC, if_neg hf, editHasExistingC, hf, ih s h]
      | imgF src cls =>
        simp only [findFileSvgC] at h
        simp [rghInjectC, editHasExistingC, ih s h]
      | otherF =>
        simp only [findFileSvgC] at h
        simp [rghInjectC, editHasExistingC, ih s h]
    | editLinkNode ch =>
      cases hfs : findSvgP fileClassSvg ch with
      | some u =>
        simp [rghInjectC, hfs, editHasExistingC,
          findSvgP_fileClass_rghChildren icon ch u hfs, List.any_cons,
          isMarkerImg_createIconImg]
      | none =>
        simp only [findFileSvgC, hfs] at h
        simp [rghInjectC, hfs, editHasExistingC, ih s h]

theorem markerCountC_rghInjectC (icon : String) :
    ∀ cs s, findFileSvgC cs = some (.inEdit s) →
    markerCountC (rghInjectC icon cs) = markerCountC cs + 1 := by
  intro cs
  induction cs with
  | nil => intro s h; simp [findFileSvgC] at h
  | cons c xs ih =>
    intro s h
    cases c with
    | top n =>
      cases n with
      | svgF t =>
        by_cases hf : fileClassSvg t = true
        · simp [findFileSvgC, if_pos hf] at h
        · simp only [findFileSvgC, if_neg hf] at h
          simp only [rghInjectC, if_neg hf, markerCountC]
          have := ih s h
          omega
      | imgF src cls =>
        simp only [findFileSvgC] at h
        simp only [rghInjectC, markerCountC]
        have := ih s h
        omega
      | otherF =>
        simp only [findFileSvgC] at h
        simp only [rghInjectC, markerCountC]
        have := ih s h
        omega
    | editLinkNode ch =>
      cases hfs : findSvgP fileClassSvg ch with
      | some u =>
        simp only [rghInjectC, hfs, Option.isSome_some, if_true, markerCountC,
          markerCountP, List.countP_cons, isMarkerImg_createIconImg, if_true]
        have hh := markerCountP_hideFirstP nonPencilFileSvg ch
        simp only [markerCountP] at hh
        omega
      | none =>
        simp only [findFileSvgC, hfs] at h
        simp only [rghInjectC, hfs, Option.isSome_none, Bool.false_eq_true,
          if_false, markerCountC]
        have := ih s h
        omega

theorem hiddenCountC_rghInjectC (icon : String) :
    ∀ cs s t, hiddenCountC cs = 0 → findFileSvgC cs = some (.inEdit s) →
    editFileIconSvgC cs = some t →
    hiddenCountC (rghInjectC icon cs) = 1 := by
  intro cs
  induction cs with
  | nil => intro s t _ h _; simp [findFileSvgC] at h
  | cons c xs ih =>
    intro s t h0 h h3
    cases c with
    | top n =>
      simp only [hiddenCountC] at h0
      have hx : hiddenCountC xs = 0 := by omega
      cases n with
      | svgF t2 =>
        by_cases hf : fileClassSvg t2 = true
        · simp [findFileSvgC, if_pos hf] at h
        · simp only [findFileSvgC, if_neg hf] at h
          simp only [editFileIconSvgC, if_neg hf] at h3
          simp only [rghInjectC, if_neg hf, hiddenCountC, ih s t hx h h3]
          omega
      | imgF src cls =>
        simp only [findFileSvgC] at h
        simp only [editFileIconSvgC] at h3
        simp only [rghInjectC, hiddenCountC, ih s t hx h h3]
        omega
      | otherF =>
        simp only [findFileSvgC] at h
        simp only [editFileIconSvgC] at h3
        simp only [rghInjectC, hiddenCountC, ih s t hx h h3]
        omega
    | editLinkNode ch =>
      simp only [hiddenCountC] at h0
      have hch : hiddenCountP ch = 0 := by omega
      have hx : hiddenCountC xs = 0 := by omega
      cases hfs : findSvgP fileClassSvg ch with
      | some u =>
        simp only [editFileIconSvgC, hfs, Option.isSome_some, if_true] at h3
        simp only [rghInjectC, hfs, Option.isSome_some, if_true, hiddenCountC,
          hiddenCountP, List.countP_cons,
          show isHiddenSvg (createIconImg icon) = false from rfl,
          Bool.false_eq_true, if_false]
        have hh := hiddenCountP_hideFirstP_found nonPencilFileSvg ch t hch h3
        simp only [hiddenCountP] at hh
        omega
      | none =>
        simp only [findFileSvgC, hfs] at h
        simp only [editFileIconSvgC, hfs, Option.isSome_none, Bool.false_eq_true,
          if_false] at h3
        simp only [rghInjectC, hfs, Option.isSome_none, Bool.false_eq_true,
          if_false, hiddenCountC, ih s t hx h h3]
        omega

theorem dropWhile_markerC_of_markerFree :
    ∀ xs : List CNode, markerCountC xs = 0 → xs.dropWhile isMarkerC = xs := by
  intro xs h
  cases xs with
  | nil => rfl
  | cons y ys =>
    have hy : isMarkerC y = false := by
      cases y with
      | top n =>
        simp only [markerCountC] at h
        by_cases hb : isMarkerImg n = true
        · simp [hb] at h
        · simpa [isMarkerC] using hb
      | editLinkNode ch => rfl
    simp [List.dropWhile_cons, hy]

theorem removeMarkersC_rghInjectC (icon : String) :
    ∀ cs s, markerCountC cs = 0 → findFileSvgC cs = some (.inEdit s) →
    removeMarkersC (rghInjectC icon cs) = hideEditC cs := by
  intro cs
  induction cs with
  | nil => intro s _ h; simp [findFileSvgC] at h
  | cons c xs ih =>
    intro s h0 h
    cases c with
    | top n =>
      simp only [markerCountC] at h0
      have hx : markerCountC xs = 0 := by omega
      cases n with
      | svgF t =>
        by_cases hf : fileClassSvg t = true
        · simp [findFileSvgC, if_pos hf] at h
        · simp only [findFileSvgC, if_neg hf] at h
          simp [rghInjectC, if_neg hf, removeMarkersC, hideEditC, isMarkerImg,
            ih s hx h]
      | imgF src cls =>
        simp only [findFileSvgC] at h
        have hn : isMarkerImg (FlatNode.imgF src cls) = false := by
          by_cases hb : isMarkerImg (FlatNode.imgF src cls) = true
          · simp [hb] at h0
          · simpa using hb
        simp [rghInjectC, removeMarkersC, hideEditC, hn, ih s hx h]
      | otherF =>
        simp only [findFileSvgC] at h
        simp [rghInjectC, removeMarkersC, hideEditC,
          show isMarkerImg FlatNode.otherF = false from rfl, ih s hx h]
    | editLinkNode ch =>
      simp only [markerCountC] at h0
      have hch : markerCountP ch = 0 := by omega
      have hx : markerCountC xs = 0 := by omega
      cases hfs : findSvgP fileClassSvg ch with
      | some u =>
        have hfree : markerCountP (hideFirstP nonPencilFileSvg ch) = 0 := by
          rw [markerCountP_hideFirstP]
          exact hch
        have h1 : removeMarkersP (createIconImg icon :: hideFirstP nonPencilFileSvg ch) =
            hideFirstP nonPencilFileSvg ch := by
          simp only [removeMarkersP, List.filter_cons, isMarkerImg_createIconImg,
            Bool.not_true, Bool.false_eq_true, if_false]
          have := removeMarkersP_of_markerFree (hideFirstP nonPencilFileSvg ch) hfree
          simpa [removeMarkersP] using this
        simp only [rghInjectC, hfs, Option.isSome_some, if_true, removeMarkersC,
          h1, hideEditC, removeMarkersC_of_markerFree xs hx]
      | none =>
        simp only [findFileSvgC, hfs] at h
        simp [rghInjectC, hfs, removeMarkersC, hideEditC, ih s hx h,
          removeMarkersP_of_markerFree ch hch]

theorem findFileSvgC_hideEditC :
    ∀ cs s, findFileSvgC cs = some (.inEdit s) →
    findFileSvgC (hideEditC cs) =
      some (.inEdit (if nonPencilFileSvg s = true then hideSvg s else s)) := by
  intro cs
  induction cs with
  | nil => intro s h; simp [findFileSvgC] at h
  | cons c xs ih =>
    intro s h
    cases c with
    | top n =>
      cases n with
      | svgF t =>
        by_cases hf : fileClassSvg t = true
        · simp [findFileSvgC, if_pos hf] at h
        · simp only [findFileSvgC, if_neg hf] at h
          simp [hideEditC, if_neg hf, findFileSvgC, hf, ih s h]
      | imgF src cls =>
        simp only [findFileSvgC] at h
        simp [hideEditC, findFileSvgC, ih s h]
      | otherF =>
        simp only [findFileSvgC] at h
        simp [hideEditC, findFileSvgC, ih s h]
    | editLinkNode ch =>
      cases hfs : findSvgP fileClassSvg ch with
      | some u =>
        simp only [findFileSvgC, hfs, Option.some.injEq, SvgLoc.inEdit.injEq] at h
        subst h
        have hgen := findSvgP_hideFirstP_general fileClassSvg nonPencilFileSvg
          (fun s => rfl) nonPencil_imp_fileClass ch
        simp [hideEditC, hfs, findFileSvgC, hgen]
      | none =>
        simp only [findFileSvgC, hfs] at h
        simp [hideEditC, hfs, findFileSvgC, ih s h]

theorem markerCountC_hideEditC :
    ∀ cs, markerCountC (hideEditC cs) = markerCountC cs := by
  intro cs
  induction cs with
  | nil => rfl
  | cons c xs ih =>
    cases c with
    | top n =>
      cases n with
      | svgF t =>
        by_cases hf : fileClassSvg t = true
        · simp [hideEditC, if_pos hf]
        · simp only [hideEditC, if_neg hf, markerCountC, ih]
      | imgF src cls => simp only [hideEditC, markerCountC, ih]
      | otherF => simp only [hideEditC, markerCountC, ih]
    | editLinkNode ch =>
      cases hfs : findSvgP fileClassSvg ch with
      | some u =>
        simp only [hideEditC, hfs, Option.isSome_some, if_true, markerCountC]
        have hh := markerCountP_hideFirstP nonPencilFileSvg ch
        omega
      | none =>
        simp only [hideEditC, hfs, Option.isSome_none, Bool.false_eq_true,
          if_false, markerCountC, ih]

theorem editFileIconSvgC_hideEditC :
    ∀ cs, editFileIconSvgC (hideEditC cs) = (editFileIconSvgC cs).map hideSvg := by
  intro cs
  induction cs with
  | nil => rfl
  | cons c xs ih =>
    cases c with
    | top n =>
      cases n with
      | svgF t =>
        by_cases hf : fileClassSvg t = true
        · simp [hideEditC, if_pos hf, editFileIconSvgC]
        · simp [hideEditC, if_neg hf, editFileIconSvgC, hf, ih]
      | imgF src cls => simp [hideEditC, editFileIconSvgC, ih]
      | otherF => simp [hideEditC, editFileIconSvgC, ih]
    | editLinkNode ch =>
      cases hfs : findSvgP fileClassSvg ch with
      | some u =>
        have hgen := findSvgP_hideFirstP_general fileClassSvg nonPencilFileSvg
          (fun s => rfl) nonPencil_imp_fileClass ch
        have hgen2 := findSvgP_hideFirstP_general nonPencilFileSvg nonPencilFileSvg
          (fun s => rfl) (fun s h => h) ch
        simp only [hideEditC, hfs, Option.isSome_some, if_true, editFileIconSvgC,
          hgen, hgen2, hfs, Option.map_some']
        cases hv : findSvgP nonPencilFileSvg ch with
        | none => simp
        | some t =>
          have ht := findSvgP_some_prop nonPencilFileSvg ch t hv
          simp [ht]
      | none =>
        simp only [hideEditC, hfs, Option.isSome_none, Bool.false_eq_true,
          if_false, editFileIconSvgC, hfs, ih]

theorem removeMarkerRunAfterEditC_rghInjectC (icon : String) :
    ∀ cs s, markerCountC cs = 0 → findFileSvgC cs = some (.inEdit s) →
    removeMarkerRunAfterEditC (rghInjectC icon cs) = rghInjectC icon cs := by
  intro cs
  induction cs with
  | nil => intro s _ h; simp [findFileSvgC] at h
  | cons c xs ih =>
    intro s h0 h
    cases c with
    | top n =>
      simp only [markerCountC] at h0
      have hx : markerCountC xs = 0 := by omega
      cases n with
      | svgF t =>
        by_cases hf : fileClassSvg t = true
        · simp [findFileSvgC, if_pos hf] at h
        · simp only [findFileSvgC, if_neg hf] at h
          simp [rghInjectC, if_neg hf, removeMarkerRunAfterEditC, hf, ih s hx h]
      | imgF src cls =>
        simp only [findFileSvgC] at h
        simp [rghInjectC, removeMarkerRunAfterEditC, ih s hx h]
      | otherF =>
        simp only [findFileSvgC] at h
        simp [rghInjectC, removeMarkerRunAfterEditC, ih s hx h]
    | editLinkNode ch =>
      simp only [markerCountC] at h0
      have hx : markerCountC xs = 0 := by omega
      cases hfs : findSvgP fileClassSvg ch with
      | some u =>
        simp [rghInjectC, hfs, removeMarkerRunAfterEditC,
          findSvgP_fileClass_rghChildren icon ch u hfs,
          dropWhile_markerC_of_markerFree xs hx]
      | none =>
        simp only [findFileSvgC, hfs] at h
        simp [rghInjectC, hfs, removeMarkerRunAfterEditC, ih s hx h]

-- ---------------------------------------------------------------------------
-- Reconciliation-step lemmas
-- ---------------------------------------------------------------------------

theorem itemIcon_hideSvg (m : IconMappings) (href : String) (s : SvgElem)
    (name : String) :
    itemIcon m href (hideSvg s) name = itemIcon m href s name := rfl

theorem treeItemIcon_hideSvg (m : IconMappings) (s : SvgElem) (name : String) :
    treeItemIcon m (hideSvg s) name = treeItemIcon m s name := rfl

theorem itemIcon_condHide (m : IconMappings) (href : String) (s : SvgElem)
    (name : String) :
    itemIcon m href (if nonPencilFileSvg s = true then hideSvg s else s) name =
      itemIcon m href s name := by
  by_cases h : nonPencilFileSvg s = true
  · simp [h, itemIcon_hideSvg]
  · simp [h]

/-- A second reconciliation pass over a row already processed once inserts
nothing, whatever the row's initial state was. -/
theorem replaceIconForItem_second_zero (m : IconMappings) (r : RowItem) :
    (replaceIconForItem m (replaceIconForItem m r).1).2 = 0 := by
  obtain ⟨pd, cell⟩ := r
  cases pd with
  | some pd =>
    cases hfind : findSvgP octiconSvg pd with
    | none => simp [replaceIconForItem, hfind]
    | some s =>
      by_cases hnext : nextIsMarkerP octiconSvg pd = true
      · simp [replaceIconForItem, hfind, hnext]
      · cases hd : m.defaultFolder with
        | none => simp [replaceIconForItem, hfind, hnext, hd]
        | some icon =>
          have h1 := findSvgP_hideInsertAfterP octiconSvg (fun s => rfl) icon pd s hfind
          have h2 := nextIsMarkerP_hideInsertAfterP octiconSvg (fun s => rfl) icon pd s hfind
          simp [replaceIconForItem, hfind, hnext, hd, h1, h2]
  | none =>
    cases cell with
    | none => simp [replaceIconForItem]
    | some c =>
      obtain ⟨link, cont⟩ := c
      cases link with
      | none => simp [replaceIconForItem]
      | some hrefText =>
        obtain ⟨href, text⟩ := hrefText
        cases cont with
        | none => simp [replaceIconForItem]
        | some cs =>
          by_cases hname : jsTrim text = ""
          · simp [replaceIconForItem, hname]
          · cases hloc : findFileSvgC cs with
            | none => simp [replaceIconForItem, hname, hloc]
            | some loc =>
              cases hicon : itemIcon m href loc.svg (rowDisplayName text) with
              | none => simp [replaceIconForItem, hname, hloc, hicon]
              | some icon =>
                cases loc with
                | atTop s =>
                  by_cases hmn : markerNextTopC cs = true
                  · simp [replaceIconForItem, hname, hloc, hicon, hmn]
                  · have h1 := findFileSvgC_hideInsertTopC icon cs s hloc
                    have h2 := markerNextTopC_hideInsertTopC icon cs s hloc
                    simp only [SvgLoc.svg] at hicon
                    simp [replaceIconForItem, hname, hloc, hicon, hmn, h1, h2,
                      SvgLoc.svg, itemIcon_hideSvg]
                | inEdit s =>
                  by_cases hex : editHasExistingC cs = true
                  · have h1 := findFileSvgC_removeMarkerRunAfterEditC cs
                    rw [hloc] at h1
                    have h2 := editHasExistingC_removeMarkerRunAfterEditC cs
                    rw [hex] at h2
                    simp only [SvgLoc.svg] at hicon
                    simp [replaceIconForItem, hname, hloc, hicon, hex, h1, h2,
                      SvgLoc.svg]
                  · have hf1 := findFileSvgC_removeOneMarkerAfterEditC cs
                    rw [hloc] at hf1
                    cases hfi : editFileIconSvgC (removeOneMarkerAfterEditC cs) with
                    | some t =>
                      have h1 := findFileSvgC_rghInjectC icon
                        (removeOneMarkerAfterEditC cs) s hf1
                      have h2 := editHasExistingC_rghInjectC icon
                        (removeOneMarkerAfterEditC cs) s hf1
                      simp only [SvgLoc.svg] at hicon
                      simp [replaceIconForItem, hname, hloc, hicon, hex, hfi,
                        h1, h2, SvgLoc.svg, itemIcon_condHide]
                    | none =>
                      have h2 := editHasExistingC_removeOneMarkerAfterEditC cs
                      have h3 := editFileIconSvgC_removeOneMarkerAfterEditC
                        (removeOneMarkerAfterEditC cs)
                      rw [hfi] at h3
                      simp only [SvgLoc.svg] at hicon
                      simp [replaceIconForItem, hname, hloc, hicon, hex, hfi,
                        hf1, h2, h3, SvgLoc.svg]

/-- A second reconciliation pass over a tree-view item already processed
once inserts nothing. -/
theorem replaceIconForTreeItem_second_zero (m : IconMappings) (t : TreeItem) :
    (replaceIconForTreeItem m (replaceIconForTreeItem m t).1).2 = 0 := by
  obtain ⟨txt, vis⟩ := t
  cases txt with
  | none => simp [replaceIconForTreeItem]
  | some txt =>
    cases vis with
    | none => simp [replaceIconForTreeItem]
    | some vs =>
      by_cases hname : jsTrim txt = ""
      · simp [replaceIconForTreeItem, hname]
      · cases hfind : findSvgP octiconSvg vs with
        | none => simp [replaceIconForTreeItem, hname, hfind]
        | some svg =>
          by_cases hany : vs.any isMarkerImg = true
          · have hoct := findSvgP_some_prop octiconSvg vs svg hfind
            have h1 := findSvgP_hideFirstP_general octiconSvg octiconSvg
              (fun s => rfl) (fun s h => h) vs
            rw [hfind] at h1
            have h2 := anyMarker_hideFirstP octiconSvg vs
            rw [hany] at h2
            simp [replaceIconForTreeItem, hname, hfind, hany, h1, h2, hoct]
          · cases hicon : treeItemIcon m svg (jsTrim txt) with
            | none => simp [replaceIconForTreeItem, hname, hfind, hany, hicon]
            | some icon =>
              have h1 := findSvgP_hideInsertAfterP octiconSvg (fun s => rfl)
                icon vs svg hfind
              have h2 := anyMarker_hideInsertAfterP octiconSvg icon vs svg hfind
              simp [replaceIconForTreeItem, hname, hfind, hany, hicon, h1, h2]

/-- Claim C4: running the full reconciliation pass (replaceIcons) twice in
succession, the second pass on the exact DOM state produced by the first,
injects zero additional replacement elements — for every DOM state the
model admits. -/
theorem replaceIcons_second_pass_injects_zero (m : IconMappings) (d : DomState) :
    (replaceIcons m (replaceIcons m d).1).2 = 0 := by
  simp only [replaceIcons]
  have h1 : (((d.rows.map (fun r => (replaceIconForItem m r).1)).map
      (fun r => (replaceIconForItem m r).2)).sum) = 0 := by
    apply List.sum_eq_zero
    intro x hx
    simp only [List.mem_map] at hx
    obtain ⟨r1, ⟨r, _, rfl⟩, rfl⟩ := hx
    exact replaceIconForItem_second_zero m r
  have h2 : (((d.trees.map (fun t => (replaceIconForTreeItem m t).1)).map
      (fun t => (replaceIconForTreeItem m t).2)).sum) = 0 := by
    apply List.sum_eq_zero
    intro x hx
    simp only [List.mem_map] at hx
    obtain ⟨t1, ⟨t, _, rfl⟩, rfl⟩ := hx
    exact replaceIconForTreeItem_second_zero m t
  omega

/-- On a pristine row one reconciliation step either does nothing at all or
performs exactly one atomic suppression-plus-injection. -/
theorem pristineRow_step_cases (m : IconMappings) (r : RowItem)
    (hp : pristineRow r) :
    replaceIconForItem m r = (r, 0) ∨
      ((replaceIconForItem m r).2 = 1 ∧
       injectedCountRow (replaceIconForItem m r).1 = 1 ∧
       hiddenCountRow (replaceIconForItem m r).1 = 1) := by
  obtain ⟨hi, hh⟩ := hp
  obtain ⟨pd, cell⟩ := r
  cases pd with
  | some pd =>
    simp only [injectedCountRow] at hi
    simp only [hiddenCountRow] at hh
    have hmP : markerCountP pd = 0 := by omega
    have hhP : hiddenCountP pd = 0 := by omega
    cases hfind : findSvgP octiconSvg pd with
    | none => left; simp [replaceIconForItem, hfind]
    | some s =>
      have hnext : nextIsMarkerP octiconSvg pd = false :=
        nextIsMarkerP_of_markerFree octiconSvg pd hmP
      cases hd : m.defaultFolder with
      | none => left; simp [replaceIconForItem, hfind, hnext, hd]
      | some icon =>
        right
        have hm1 := markerCountP_hideInsertAfterP octiconSvg icon pd s hfind
        have hh1 := hiddenCountP_hideInsertAfterP octiconSvg icon pd s hhP hfind
        simp only [replaceIconForItem, hfind, hnext, hd, Bool.false_eq_true,
          if_false, injectedCountRow, hiddenCountRow, hm1, hh1]
        refine ⟨trivial, by omega, by omega⟩
  | none =>
    cases cell with
    | none => left; simp [replaceIconForItem]
    | some c =>
      obtain ⟨link, cont⟩ := c
      cases link with
      | none => left; simp [replaceIconForItem]
      | some hrefText =>
        obtain ⟨href, text⟩ := hrefText
        cases cont with
        | none => left; simp [replaceIconForItem]
        | some cs =>
          simp only [injectedCountRow] at hi
          simp only [hiddenCountRow] at hh
          have hmC : markerCountC cs = 0 := by omega
          have hhC : hiddenCountC cs = 0 := by omega
          by_cases hname : jsTrim text = ""
          · left; simp [replaceIconForItem, hname]
          · cases hloc : findFileSvgC cs with
            | none => left; simp [replaceIconForItem, hname, hloc]
            | some loc =>
              cases hicon : itemIcon m href loc.svg (rowDisplayName text) with
              | none => left; simp [replaceIconForItem, hname, hloc, hicon]
              | some icon =>
                cases loc with
                | atTop s =>
                  have hmn : markerNextTopC cs = false :=
                    markerNextTopC_of_markerFree cs hmC
                  right
                  have hm1 := markerCountC_hideInsertTopC icon cs s hloc
                  have hh1 := hiddenCountC_hideInsertTopC icon cs s hhC hloc
                  simp only [SvgLoc.svg] at hicon
                  simp only [replaceIconForItem, hname, hloc, hicon, hmn,
                    Bool.false_eq_true, if_false, SvgLoc.svg, if_neg hname,
                    injectedCountRow, hiddenCountRow, hm1, hh1]
                  refine ⟨trivial, by omega, trivial⟩
                | inEdit s =>
                  have hex : editHasExistingC cs = false :=
                    editHasExistingC_of_markerFree cs hmC
                  have hro : removeOneMarkerAfterEditC cs = cs :=
                    removeOneMarkerAfterEditC_of_markerFree cs hmC
                  simp only [SvgLoc.svg] at hicon
                  cases hfi : editFileIconSvgC cs with
                  | some t =>
                    right
                    have hm1 := markerCountC_rghInjectC icon cs s hloc
                    have hh1 := hiddenCountC_rghInjectC icon cs s t hhC hloc hfi
                    simp only [replaceIconForItem, hname, hloc, hicon, hex,
                      Bool.false_eq_true, if_false, if_neg hname, SvgLoc.svg,
                      hro, hfi, injectedCountRow, hiddenCountRow, hm1, hh1]
                    refine ⟨trivial, by omega, trivial⟩
                  | none =>
                    left
                    simp [replaceIconForItem, hname, hloc, hicon, hex, hro, hfi,
                      SvgLoc.svg]
  
/-- On a pristine tree-view item one reconciliation step either does
nothing or performs exactly one atomic suppression-plus-injection. -/
theorem pristineTree_step_cases (m : IconMappings) (t : TreeItem)
    (hp : pristineTree t) :
    replaceIconForTreeItem m t = (t, 0) ∨
      ((replaceIconForTreeItem m t).2 = 1 ∧
       injectedCountTree (replaceIconForTreeItem m t).1 = 1 ∧
       hiddenCountTree (replaceIconForTreeItem m t).1 = 1) := by
  obtain ⟨hi, hh⟩ := hp
  obtain ⟨txt, vis⟩ := t
  cases txt with
  | none => left; simp [replaceIconForTreeItem]
  | some txt =>
    cases vis with
    | none => left; simp [replaceIconForTreeItem]
    | some vs =>
      simp only [injectedCountTree] at hi
      simp only [hiddenCountTree] at hh
      by_cases hname : jsTrim txt = ""
      · left; simp [replaceIconForTreeItem, hname]
      · cases hfind : findSvgP octiconSvg vs with
        | none => left; simp [replaceIconForTreeItem, hname, hfind]
        | some svg =>
          have hany : vs.any isMarkerImg = false :=
            anyMarkerP_of_markerFree vs hi
          cases hicon : treeItemIcon m svg (jsTrim txt) with
          | none => left; simp [replaceIconForTreeItem, hname, hfind, hany, hicon]
          | some icon =>
            right
            have hm1 := markerCountP_hideInsertAfterP octiconSvg icon vs svg hfind
            have hh1 := hiddenCountP_hideInsertAfterP octiconSvg icon vs svg hh hfind
            simp only [replaceIconForTreeItem, hname, hfind, hany, hicon,
              Bool.false_eq_true, if_false, if_neg hname, injectedCountTree,
              hiddenCountTree, hm1, hh1]
            refine ⟨trivial, by omega, trivial⟩

/-- After one step on a pristine row, further steps leave the row unchanged
and insert nothing. -/
theorem pristineRow_step_fix (m : IconMappings) (r : RowItem)
    (hp : pristineRow r) :
    replaceIconForItem m (replaceIconForItem m r).1 = ((replaceIconForItem m r).1, 0) := by
  obtain ⟨hi, hh⟩ := hp
  obtain ⟨pd, cell⟩ := r
  cases pd with
  | some pd =>
    simp only [injectedCountRow] at hi
    have hmP : markerCountP pd = 0 := by omega
    cases hfind : findSvgP octiconSvg pd with
    | none => simp [replaceIconForItem, hfind]
    | some s =>
      have hnext : nextIsMarkerP octiconSvg pd = false :=
        nextIsMarkerP_of_markerFree octiconSvg pd hmP
      cases hd : m.defaultFolder with
      | none => simp [replaceIconForItem, hfind, hnext, hd]
      | some icon =>
        have h1 := findSvgP_hideInsertAfterP octiconSvg (fun s => rfl) icon pd s hfind
        have h2 := nextIsMarkerP_hideInsertAfterP octiconSvg (fun s => rfl) icon pd s hfind
        simp [replaceIconForItem, hfind, hnext, hd, h1, h2]
  | none =>
    cases cell with
    | none => simp [replaceIconForItem]
    | some c =>
      obtain ⟨link, cont⟩ := c
      cases link with
      | none => simp [replaceIconForItem]
      | some hrefText =>
        obtain ⟨href, text⟩ := hrefText
        cases cont with
        | none => simp [replaceIconForItem]
        | some cs =>
          simp only [injectedCountRow] at hi
          have hmC : markerCountC cs = 0 := by omega
          by_cases hname : jsTrim text = ""
          · simp [replaceIconForItem, hname]
          · cases hloc : findFileSvgC cs with
            | none => simp [replaceIconForItem, hname, hloc]
            | some loc =>
              cases hicon : itemIcon m href loc.svg (rowDisplayName text) with
              | none => simp [replaceIconForItem, hname, hloc, hicon]
              | some icon =>
                cases loc with
                | atTop s =>
                  by_cases hmn : markerNextTopC cs = true
                  · simp [replaceIconForItem, hname, hloc, hicon, hmn]
                  · have h1 := findFileSvgC_hideInsertTopC icon cs s hloc
                    have h2 := markerNextTopC_hideInsertTopC icon cs s hloc
                    simp only [SvgLoc.svg] at hicon
                    simp [replaceIconForItem, hname, hloc, hicon, hmn, h1, h2,
                      SvgLoc.svg, itemIcon_hideSvg]
                | inEdit s =>
                  have hex : editHasExistingC cs = false :=
                    editHasExistingC_of_markerFree cs hmC
                  have hro : removeOneMarkerAfterEditC cs = cs :=
                    removeOneMarkerAfterEditC_of_markerFree cs hmC
                  simp only [SvgLoc.svg] at hicon
                  cases hfi : editFileIconSvgC cs with
                  | some t =>
                    have h1 := findFileSvgC_rghInjectC icon cs s hloc
                    have h2 := editHasExistingC_rghInjectC icon cs s hloc
                    have h3 := removeMarkerRunAfterEditC_rghInjectC icon cs s hmC hloc
                    simp [replaceIconForItem, hname, hloc, hicon, hex, hro, hfi,
                      h1, h2, h3, SvgLoc.svg, itemIcon_condHide]
                  | none =>
                    simp [replaceIconForItem, hname, hloc, hicon, hex, hro, hfi,
                      SvgLoc.svg]

/-- After one step on a pristine tree-view item, further steps leave it
unchanged and insert nothing. -/
theorem pristineTree_step_fix (m : IconMappings) (t : TreeItem)
    (hp : pristineTree t) :
    replaceIconForTreeItem m (replaceIconForTreeItem m t).1 =
      ((replaceIconForTreeItem m t).1, 0) := by
  obtain ⟨hi, hh⟩ := hp
  obtain ⟨txt, vis⟩ := t
  cases txt with
  | none => simp [replaceIconForTreeItem]
  | some txt =>
    cases vis with
    | none => simp [replaceIconForTreeItem]
    | some vs =>
      simp only [injectedCountTree] at hi
      by_cases hname : jsTrim txt = ""
      · simp [replaceIconForTreeItem, hname]
      · cases hfind : findSvgP octiconSvg vs with
        | none => simp [replaceIconForTreeItem, hname, hfind]
        | some svg =>
          have hany : vs.any isMarkerImg = false :=
            anyMarkerP_of_markerFree vs hi
          cases hicon : treeItemIcon m svg (jsTrim txt) with
          | none => simp [replaceIconForTreeItem, hname, hfind, hany, hicon]
          | some icon =>
            have h1 := findSvgP_hideInsertAfterP octiconSvg (fun s => rfl)
              icon vs svg hfind
            have h2 := anyMarker_hideInsertAfterP octiconSvg icon vs svg hfind
            have h3 := hideFirstP_hideInsertAfterP octiconSvg (fun s => rfl)
              icon vs svg hfind
            simp [replaceIconForTreeItem, hname, hfind, hany, hicon, h1, h2, h3]

theorem iterRowPass_fixed (m : IconMappings) :
    ∀ (n : Nat) (s : RowItem), replaceIconForItem m s = (s, 0) →
    iterRowPass m n s = s := by
  intro n
  induction n with
  | zero => intro s _; rfl
  | succ n ih =>
    intro s h
    simp only [iterRowPass, h]
    exact ih s h

theorem iterTreePass_fixed (m : IconMappings) :
    ∀ (n : Nat) (s : TreeItem), replaceIconForTreeItem m s = (s, 0) →
    iterTreePass m n s = s := by
  intro n
  induction n with
  | zero => intro s _; rfl
  | succ n ih =>
    intro s h
    simp only [iterTreePass, h]
    exact ih s h

theorem pristineRow_iter (m : IconMappings) (r : RowItem) (hp : pristineRow r)
    (n : Nat) : iterRowPass m (n + 1) r = (replaceIconForItem m r).1 := by
  simp only [iterRowPass]
  exact iterRowPass_fixed m n _ (pristineRow_step_fix m r hp)

theorem pristineTree_iter (m : IconMappings) (t : TreeItem) (hp : pristineTree t)
    (n : Nat) : iterTreePass m (n + 1) t = (replaceIconForTreeItem m t).1 := by
  simp only [iterTreePass]
  exact iterTreePass_fixed m n _ (pristineTree_step_fix m t hp)

/-- Claim C5: starting from a page-rendered (pristine) candidate, at every
point during and after any sequence of reconciliation steps each original
icon-bearing node has at most one injected replacement image, and
suppression of the original and insertion of the replacement happen
together as one atomic pair: a step either changes nothing, or injects
exactly one marker image while hiding exactly one SVG, and thereafter the
number of suppressed originals always equals the number of injected
replacements, which never exceeds one.  Stated for both candidate kinds
(replaceIconForItem and replaceIconForTreeItem). -/
theorem injection_atomic_at_most_one :
    (∀ (m : IconMappings) (r : RowItem), pristineRow r →
      (replaceIconForItem m r = (r, 0) ∨
        ((replaceIconForItem m r).2 = 1 ∧
         injectedCountRow (replaceIconForItem m r).1 = 1 ∧
         hiddenCountRow (replaceIconForItem m r).1 = 1)) ∧
      (∀ n, injectedCountRow (iterRowPass m n r) ≤ 1 ∧
            hiddenCountRow (iterRowPass m n r) = injectedCountRow (iterRowPass m n r))) ∧
    (∀ (m : IconMappings) (t : TreeItem), pristineTree t →
      (replaceIconForTreeItem m t = (t, 0) ∨
        ((replaceIconForTreeItem m t).2 = 1 ∧
         injectedCountTree (replaceIconForTreeItem m t).1 = 1 ∧
         hiddenCountTree (replaceIconForTreeItem m t).1 = 1)) ∧
      (∀ n, injectedCountTree (iterTreePass m n t) ≤ 1 ∧
            hiddenCountTree (iterTreePass m n t) = injectedCountTree (iterTreePass m n t))) := by
  constructor
  · intro m r hp
    refine ⟨pristineRow_step_cases m r hp, ?_⟩
    intro n
    cases n with
    | zero =>
      simp only [iterRowPass]
      exact ⟨by rw [hp.1]; omega, by rw [hp.1, hp.2]⟩
    | succ n =>
      rw [pristineRow_iter m r hp n]
      rcases pristineRow_step_cases m r hp with hcase | ⟨_, hc1, hc2⟩
      · rw [hcase]
        exact ⟨by rw [hp.1]; omega, by rw [hp.1, hp.2]⟩
      · exact ⟨by rw [hc1], by rw [hc1, hc2]⟩
  · intro m t hp
    refine ⟨pristineTree_step_cases m t hp, ?_⟩
    intro n
    cases n with
    | zero =>
      simp only [iterTreePass]
      exact ⟨by rw [hp.1]; omega, by rw [hp.1, hp.2]⟩
    | succ n =>
      rw [pristineTree_iter m t hp n]
      rcases pristineTree_step_cases m t hp with hcase | ⟨_, hc1, hc2⟩
      · rw [hcase]
        exact ⟨by rw [hp.1]; omega, by rw [hp.1, hp.2]⟩
      · exact ⟨by rw [hc1], by rw [hc1, hc2]⟩

/-- Witness for claim C5: the concrete pristine row and tree item, after
two reconciliation passes each. -/
theorem injection_atomic_at_most_one_witness :
    (injectedCountRow (iterRowPass mW 2 rowW) ≤ 1 ∧
     hiddenCountRow (iterRowPass mW 2 rowW) = injectedCountRow (iterRowPass mW 2 rowW)) ∧
    (injectedCountTree (iterTreePass mW 2 treeW) ≤ 1 ∧
     hiddenCountTree (iterTreePass mW 2 treeW) = injectedCountTree (iterTreePass mW 2 treeW)) :=
  ⟨(injection_atomic_at_most_one.1 mW rowW (by decide)).2 2,
   (injection_atomic_at_most_one.2 mW treeW (by decide)).2 2⟩

/-- Claim C6: if the injected replacement image of a processed pristine row
is removed while the paired original stays in place (and suppressed), one
reconciliation pass over that row restores exactly one injected element for
the original, and an immediately repeated invocation injects nothing
further — never two replacements. -/
theorem orphan_repair_exactly_one (m : IconMappings) (r : RowItem)
    (hp : pristineRow r) (h1 : (replaceIconForItem m r).2 = 1) :
    (replaceIconForItem m (removeInjectedRow (replaceIconForItem m r).1)).2 = 1 ∧
    injectedCountRow
      (replaceIconForItem m (removeInjectedRow (replaceIconForItem m r).1)).1 = 1 ∧
    (replaceIconForItem m
      (replaceIconForItem m (removeInjectedRow (replaceIconForItem m r).1)).1).2 = 0 := by
  have hsecond := fun s => replaceIconForItem_second_zero m s
  obtain ⟨hi, hh⟩ := hp
  obtain ⟨pd, cell⟩ := r
  cases pd with
  | some pd =>
    simp only [injectedCountRow] at hi
    have hmP : markerCountP pd = 0 := by omega
    cases hfind : findSvgP octiconSvg pd with
    | none => simp [replaceIconForItem, hfind] at h1
    | some s =>
      have hoct : octiconSvg s = true := findSvgP_some_prop octiconSvg pd s hfind
      have hnext : nextIsMarkerP octiconSvg pd = false :=
        nextIsMarkerP_of_markerFree octiconSvg pd hmP
      cases hd : m.defaultFolder with
      | none => simp [replaceIconForItem, hfind, hnext, hd] at h1
      | some icon =>
        have hrem := removeMarkersP_hideInsertAfterP octiconSvg icon pd s hmP hfind
        have hgen := findSvgP_hideFirstP_general octiconSvg octiconSvg
          (fun s => rfl) (fun s h => h) pd
        rw [hfind] at hgen
        simp only [Option.map_some', hoct, if_true] at hgen
        have hmH : markerCountP (hideFirstP octiconSvg pd) = 0 := by
          rw [markerCountP_hideFirstP]
          exact hmP
        have hnextH : nextIsMarkerP octiconSvg (hideFirstP octiconSvg pd) = false :=
          nextIsMarkerP_of_markerFree octiconSvg _ hmH
        have hins := markerCountP_hideInsertAfterP octiconSvg icon
          (hideFirstP octiconSvg pd) (hideSvg s) hgen
        -- the cell part of the row carries no markers and is preserved
        cases cell with
        | none =>
          refine ⟨?_, ?_, hsecond _⟩
          · simp [replaceIconForItem, hfind, hnext, hd, removeInjectedRow,
              hrem, hgen, hnextH]
          · simp [replaceIconForItem, hfind, hnext, hd, removeInjectedRow,
              hrem, hgen, hnextH, injectedCountRow, hins, hmH]
        | some c =>
          obtain ⟨lnk, cont⟩ := c
          cases cont with
          | none =>
            refine ⟨?_, ?_, hsecond _⟩
            · simp [replaceIconForItem, hfind, hnext, hd, removeInjectedRow,
                hrem, hgen, hnextH]
            · simp [replaceIconForItem, hfind, hnext, hd, removeInjectedRow,
                hrem, hgen, hnextH, injectedCountRow, hins, hmH]
          | some cs2 =>
            have hmC2 : markerCountC cs2 = 0 := by
              simp only [injectedCountRow] at hi
              omega
            have hrc2 : removeMarkersC cs2 = cs2 :=
              removeMarkersC_of_markerFree cs2 hmC2
            refine ⟨?_, ?_, hsecond _⟩
            · simp [replaceIconForItem, hfind, hnext, hd, removeInjectedRow,
                hrem, hgen, hnextH, hrc2]
            · simp [replaceIconForItem, hfind, hnext, hd, removeInjectedRow,
                hrem, hgen, hnextH, hrc2, injectedCountRow, hins, hmH, hmC2]
  | none =>
    cases cell with
    | none => simp [replaceIconForItem] at h1
    | some c =>
      obtain ⟨link, cont⟩ := c
      cases link with
      | none => simp [replaceIconForItem] at h1
      | some hrefText =>
        obtain ⟨href, text⟩ := hrefText
        cases cont with
        | none => simp [replaceIconForItem] at h1
        | some cs =>
          simp only [injectedCountRow] at hi
          simp only [hiddenCountRow] at hh
          have hmC : markerCountC cs = 0 := by omega
          by_cases hname : jsTrim text = ""
          · simp [replaceIconForItem, hname] at h1
          · cases hloc : findFileSvgC cs with
            | none => simp [replaceIconForItem, hname, hloc] at h1
            | some loc =>
              cases hicon : itemIcon m href loc.svg (rowDisplayName text) with
              | none => simp [replaceIconForItem, hname, hloc, hicon] at h1
              | some icon =>
                cases loc with
                | atTop s =>
                  have hmn : markerNextTopC cs = false :=
                    markerNextTopC_of_markerFree cs hmC
                  simp only [SvgLoc.svg] at hicon
                  have hrem := removeMarkersC_hideInsertTopC icon cs s hmC hloc
                  have hfindH := findFileSvgC_hideTopC cs s hloc
                  have hmH : markerCountC (hideTopC cs) = 0 := by
                    rw [markerCountC_hideTopC]
                    exact hmC
                  have hmnH : markerNextTopC (hideTopC cs) = false :=
                    markerNextTopC_of_markerFree _ hmH
                  have hins := markerCountC_hideInsertTopC icon (hideTopC cs)
                    (hideSvg s) hfindH
                  refine ⟨?_, ?_, hsecond _⟩
                  · simp [replaceIconForItem, hname, hloc, hicon, hmn,
                      removeInjectedRow, hrem, hfindH, hmnH, SvgLoc.svg,
                      itemIcon_hideSvg]
                  · simp [replaceIconForItem, hname, hloc, hicon, hmn,
                      removeInjectedRow, hrem, hfindH, hmnH, SvgLoc.svg,
                      itemIcon_hideSvg, injectedCountRow, hins, hmH]
                | inEdit s =>
                  have hex : editHasExistingC cs = false :=
                    editHasExistingC_of_markerFree cs hmC
                  have hro : removeOneMarkerAfterEditC cs = cs :=
                    removeOneMarkerAfterEditC_of_markerFree cs hmC
                  simp only [SvgLoc.svg] at hicon
                  cases hfi : editFileIconSvgC cs with
                  | none =>
                    simp [replaceIconForItem, hname, hloc, hicon, hex, hro,
                      hfi, SvgLoc.svg] at h1
                  | some t =>
                    have hrem := removeMarkersC_rghInjectC icon cs s hmC hloc
                    have hfindH := findFileSvgC_hideEditC cs s hloc
                    have hmH : markerCountC (hideEditC cs) = 0 := by
                      rw [markerCountC_hideEditC]
                      exact hmC
                    have hexH : editHasExistingC (hideEditC cs) = false :=
                      editHasExistingC_of_markerFree _ hmH
                    have hroH : removeOneMarkerAfterEditC (hideEditC cs) = hideEditC cs :=
                      removeOneMarkerAfterEditC_of_markerFree _ hmH
                    have hfiH : editFileIconSvgC (hideEditC cs) = some (hideSvg t) := by
                      rw [editFileIconSvgC_hideEditC, hfi, Option.map_some']
                    have hins := markerCountC_rghInjectC icon (hideEditC cs)
                      (if nonPencilFileSvg s = true then hideSvg s else s) hfindH
                    refine ⟨?_, ?_, hsecond _⟩
                    · simp [replaceIconForItem, hname, hloc, hicon, hex, hro,
                        hfi, removeInjectedRow, hrem, hfindH, hexH, hroH, hfiH,
                        SvgLoc.svg, itemIcon_condHide]
                    · simp [replaceIconForItem, hname, hloc, hicon, hex, hro,
                        hfi, removeInjectedRow, hrem, hfindH, hexH, hroH, hfiH,
                        SvgLoc.svg, itemIcon_condHide, injectedCountRow,
                        hins, hmH]

/-- Witness for claim C6 on the concrete pristine index.php row. -/
theorem orphan_repair_exactly_one_witness :
    (replaceIconForItem mW (removeInjectedRow (replaceIconForItem mW rowW).1)).2 = 1 ∧
    injectedCountRow
      (replaceIconForItem mW (removeInjectedRow (replaceIconForItem mW rowW).1)).1 = 1 ∧
    (replaceIconForItem mW
      (replaceIconForItem mW (removeInjectedRow (replaceIconForItem mW rowW).1)).1).2 = 0 :=
  orphan_repair_exactly_one mW rowW (by decide) (by decide)

/-- Claim C7: whenever an expected sub-element of a candidate row cannot be
located — the target cell, the name link, the filename column, or the icon
SVG (and for tree items the name span, the visual container, or the SVG) —
the scan leaves that node entirely unmodified and inserts nothing; being a
total function it raises no error; and the full pass processes every
candidate independently, so all remaining candidates in the batch are still
processed. -/
theorem malformed_node_skipped_batch_continues :
    (∀ (m : IconMappings), replaceIconForItem m ⟨none, none⟩ = (⟨none, none⟩, 0)) ∧
    (∀ (m : IconMappings) (cont : Option (List CNode)),
      replaceIconForItem m ⟨none, some ⟨none, cont⟩⟩ =
        (⟨none, some ⟨none, cont⟩⟩, 0)) ∧
    (∀ (m : IconMappings) (href text : String),
      replaceIconForItem m ⟨none, some ⟨some (href, text), none⟩⟩ =
        (⟨none, some ⟨some (href, text), none⟩⟩, 0)) ∧
    (∀ (m : IconMappings) (href text : String) (cs : List CNode),
      findFileSvgC cs = none →
      replaceIconForItem m ⟨none, some ⟨some (href, text), some cs⟩⟩ =
        (⟨none, some ⟨some (href, text), some cs⟩⟩, 0)) ∧
    (∀ (m : IconMappings) (t : TreeItem),
      (t.nameText = none ∨ t.visual = none ∨
        (∃ vs, t.visual = some vs ∧ findSvgP octiconSvg vs = none)) →
      replaceIconForTreeItem m t = (t, 0)) ∧
    (∀ (m : IconMappings) (d : DomState) (i : Nat),
      ((replaceIcons m d).1).rows[i]? =
        (d.rows[i]?).map (fun r => (replaceIconForItem m r).1) ∧
      ((replaceIcons m d).1).trees[i]? =
        (d.trees[i]?).map (fun t => (replaceIconForTreeItem m t).1)) := by
  refine ⟨?_, ?_, ?_, ?_, ?_, ?_⟩
  · intro m; simp [replaceIconForItem]
  · intro m cont; simp [replaceIconForItem]
  · intro m href text; simp [replaceIconForItem]
  · intro m href text cs hsvg
    by_cases hname : jsTrim text = ""
    · simp [replaceIconForItem, hname]
    · simp [replaceIconForItem, hname, hsvg]
  · intro m t hmal
    obtain ⟨txt, vis⟩ := t
    rcases hmal with hmal | hmal | ⟨vs, hvs, hsvg⟩
    · simp only at hmal
      subst hmal
      simp [replaceIconForTreeItem]
    · simp only at hmal
      subst hmal
      cases txt with
      | none => simp [replaceIconForTreeItem]
      | some txt => simp [replaceIconForTreeItem]
    · simp only at hvs
      subst hvs
      cases txt with
      | none => simp [replaceIconForTreeItem]
      | some txt =>
        by_cases hname : jsTrim txt = ""
        · simp [replaceIconForTreeItem, hname]
        · simp [replaceIconForTreeItem, hname, hsvg]
  · intro m d i
    constructor
    · simp [replaceIcons, List.getElem?_map]
    · simp [replaceIcons, List.getElem?_map]

/-- Witness for claim C7: a row whose filename column holds no icon SVG is
returned unmodified with zero insertions, and in a two-row batch the row
after it is still processed. -/
theorem malformed_node_skipped_batch_continues_witness :
    replaceIconForItem mW rowBad = (rowBad, 0) ∧
    ((replaceIcons mW ⟨[rowBad, rowW], []⟩).1).rows[1]? =
      (([rowBad, rowW] : List RowItem)[1]?).map (fun r => (replaceIconForItem mW r).1) :=
  ⟨malformed_node_skipped_batch_continues.2.2.2.1 mW "/u/r/blob/main/x.bin" "x.bin"
      [CNode.top FlatNode.otherF] (by decide),
   (malformed_node_skipped_batch_continues.2.2.2.2.2 mW ⟨[rowBad, rowW], []⟩ 1).1⟩
